import Mathlib

/-! # cmtp-responder: configuration loading, bootstrap and OS-service wrappers

A shallow embedding of `src/mtp_init.c` and `src/util/mtp_util.c`.

Conventions of the embedding
* a `char` is the natural number of its byte; a C string is the list of the
  bytes before its terminating NUL;
* an `int` is an `Int` in the 32-bit range: `atoi` truncates to 32 bits itself,
  the product of two `int` is reduced to 32 bits by `to_int`, and an `int`
  passed as a `gsize` is converted by `int_to_gsize`;
* the constants of `mtp_config.h` (absent from the sources at hand) are the
  fields of `mtp_defaults`;
* the stream `fopen` returns is the list of the bytes still to be read, and
  `none` when the file cannot be opened.
-/

namespace Mtp

/-! ## libc -/

/-- The `tolower` of the "C" locale. -/
def tolower (c : Nat) : Nat :=
  if 65 ≤ c ∧ c ≤ 90 then c + 32 else c

/-- The `isspace` of the "C" locale: space, and `\t \n \v \f \r`. -/
def isspace (c : Nat) : Bool :=
  c == 32 || (9 ≤ c && c ≤ 13)

/-- The `isdigit` of the "C" locale. -/
def isdigit (c : Nat) : Bool :=
  48 ≤ c && c ≤ 57

/-- The C string stored at the start of a byte array: the bytes before the
first NUL. -/
def c_str (mem : List Nat) : List Nat :=
  mem.takeWhile (fun c => c != 0)

/-- The function `strcasecmp(a, b)` on two C strings: the difference of the first pair of
lower-cased bytes that differ, the terminating NUL counting as byte 0. -/
def strcasecmp : List Nat → List Nat → Int
  | [], [] => 0
  | [], b :: _ => 0 - (tolower b : Int)
  | a :: _, [] => (tolower a : Int)
  | a :: as, b :: bs =>
    if tolower a = tolower b then strcasecmp as bs
    else (tolower a : Int) - (tolower b : Int)

/-- The function `strrchr(s, c)` for `c` other than NUL: the index of the last occurrence of
`c` in the C string `s`, `none` for a NULL result. -/
def strrchr : List Nat → Nat → Option Nat
  | [], _ => none
  | x :: xs, c =>
    match strrchr xs c with
    | some i => some (i + 1)
    | none => if x = c then some 0 else none

/-- The function `strtok_r(s, delim, &saveptr)` on the C string `s` (the caller passes the
string `saveptr` points to when the C argument is NULL): the token, `none` for
NULL, and the string `saveptr` points to afterwards. As in glibc: skip the
leading delimiters, stop at the next delimiter, overwrite it with NUL and
leave `saveptr` just after it. -/
def strtok_r (s : List Nat) (delim : List Nat) : Option (List Nat) × List Nat :=
  match s.dropWhile (fun c => decide (c ∈ delim)) with
  | [] => (none, [])
  | c :: cs =>
    let token := (c :: cs).takeWhile (fun x => !decide (x ∈ delim))
    match (c :: cs).dropWhile (fun x => !decide (x ∈ delim)) with
    | [] => (some token, [])
    | _ :: rest => (some token, rest)

/-- The value of the decimal digits at the start of `s`, on top of `acc`. -/
def strtol_digits : List Nat → Nat → Nat
  | [], acc => acc
  | c :: cs, acc =>
    if isdigit c then strtol_digits cs (acc * 10 + (c - 48)) else acc

/-- The constant `LONG_MAX` of an LP64 platform. -/
def LONG_MAX : Int := 2 ^ 63 - 1

/-- The constant `LONG_MIN` of an LP64 platform. -/
def LONG_MIN : Int := -(2 ^ 63)

/-- The function `strtol(s, NULL, 10)`: white space, an optional sign, decimal digits; the
result saturates at `LONG_MIN` and `LONG_MAX`. -/
def strtol (s : List Nat) : Int :=
  match s.dropWhile isspace with
  | 45 :: t => max (-(strtol_digits t 0 : Int)) LONG_MIN
  | 43 :: t => min (strtol_digits t 0 : Int) LONG_MAX
  | t => min (strtol_digits t 0 : Int) LONG_MAX

/-- The conversion of a `long` to `int`: reduction modulo `2 ^ 32` into the
signed range. -/
def to_int (x : Int) : Int :=
  (x + 2 ^ 31) % 2 ^ 32 - 2 ^ 31

/-- The function `atoi(s)`, which glibc defines as `(int) strtol(s, NULL, 10)`. -/
def atoi (s : List Nat) : Int :=
  to_int (strtol s)

/-- The bytes `fgets` stores when it may still store `room` of them, and the
stream that is left: it stops after a newline, at the end of the stream, or
when there is no room left. -/
def fgets_read : Nat → List Nat → List Nat × List Nat
  | 0, fp => ([], fp)
  | _ + 1, [] => ([], [])
  | room + 1, c :: fp =>
    if c = 10 then ([c], fp)
    else ((c :: (fgets_read room fp).1), (fgets_read room fp).2)

/-- The function `fgets(buf, size, fp)`: `none` for NULL (end of the stream, nothing read),
else the bytes stored in `buf` before the terminating NUL (at most `size - 1`)
and the stream that is left. -/
def fgets (size : Nat) (fp : List Nat) : Option (List Nat × List Nat) :=
  match fp with
  | [] => none
  | _ :: _ => some (fgets_read (size - 1) fp)

/-! ## `mtp_init.c`: the configuration -/

/-- The type `mtp_config_t` of `g_conf`. -/
structure mtp_config_t where
  is_init : Bool
  mmap_threshold : Int
  init_rx_ipc_size : Int
  init_tx_ipc_size : Int
  max_rx_ipc_size : Int
  max_tx_ipc_size : Int
  read_usb_size : Int
  write_usb_size : Int
  read_file_size : Int
  write_file_size : Int
  max_io_buf_size : Int
  read_file_delay : Int
  support_pthread_sched : Bool
  inheritsched : Nat
  schedpolicy : Nat
  file_schedparam : Int
  usb_schedparam : Int
  deriving DecidableEq, Repr

/-- The built-in defaults: the `MTP_*` constants of `mtp_config.h`, each
already converted to the type of the field it is assigned to. -/
structure mtp_defaults where
  MTP_MMAP_THRESHOLD : Int
  MTP_READ_USB_SIZE : Int
  MTP_WRITE_USB_SIZE : Int
  MTP_READ_FILE_SIZE : Int
  MTP_WRITE_FILE_SIZE : Int
  MTP_INIT_RX_IPC_SIZE : Int
  MTP_INIT_TX_IPC_SIZE : Int
  MTP_MAX_RX_IPC_SIZE : Int
  MTP_MAX_TX_IPC_SIZE : Int
  MTP_MAX_IO_BUF_SIZE : Int
  MTP_READ_FILE_DELAY : Int
  MTP_SUPPORT_PTHREAD_SCHED : Int
  MTP_INHERITSCHED : Nat
  MTP_SCHEDPOLICY : Nat
  MTP_FILE_SCHEDPARAM : Int
  MTP_USB_SCHEDPARAM : Int
  deriving DecidableEq, Repr

/-- The string literal "mmap_threshold". -/
def str_mmap_threshold : List Nat :=
  [109, 109, 97, 112, 95, 116, 104, 114, 101, 115, 104, 111, 108, 100]

/-- The string literal "init_rx_ipc_size". -/
def str_init_rx_ipc_size : List Nat :=
  [105, 110, 105, 116, 95, 114, 120, 95, 105, 112, 99, 95, 115, 105, 122, 101]

/-- The string literal "init_tx_ipc_size". -/
def str_init_tx_ipc_size : List Nat :=
  [105, 110, 105, 116, 95, 116, 120, 95, 105, 112, 99, 95, 115, 105, 122, 101]

/-- The string literal "max_rx_ipc_size". -/
def str_max_rx_ipc_size : List Nat :=
  [109, 97, 120, 95, 114, 120, 95, 105, 112, 99, 95, 115, 105, 122, 101]

/-- The string literal "max_tx_ipc_size". -/
def str_max_tx_ipc_size : List Nat :=
  [109, 97, 120, 95, 116, 120, 95, 105, 112, 99, 95, 115, 105, 122, 101]

/-- The string literal "read_usb_size". -/
def str_read_usb_size : List Nat :=
  [114, 101, 97, 100, 95, 117, 115, 98, 95, 115, 105, 122, 101]

/-- The string literal "write_usb_size". -/
def str_write_usb_size : List Nat :=
  [119, 114, 105, 116, 101, 95, 117, 115, 98, 95, 115, 105, 122, 101]

/-- The string literal "read_file_size". -/
def str_read_file_size : List Nat :=
  [114, 101, 97, 100, 95, 102, 105, 108, 101, 95, 115, 105, 122, 101]

/-- The string literal "write_file_size". -/
def str_write_file_size : List Nat :=
  [119, 114, 105, 116, 101, 95, 102, 105, 108, 101, 95, 115, 105, 122, 101]

/-- The string literal "max_io_buf_size". -/
def str_max_io_buf_size : List Nat :=
  [109, 97, 120, 95, 105, 111, 95, 98, 117, 102, 95, 115, 105, 122, 101]

/-- The string literal "read_file_delay". -/
def str_read_file_delay : List Nat :=
  [114, 101, 97, 100, 95, 102, 105, 108, 101, 95, 100, 101, 108, 97, 121]

/-- The string literal "support_pthread_sched". -/
def str_support_pthread_sched : List Nat :=
  [115, 117, 112, 112, 111, 114, 116, 95, 112, 116, 104, 114, 101, 97, 100, 95, 115, 99, 104, 101, 100]

/-- The string literal "inheritsched". -/
def str_inheritsched : List Nat :=
  [105, 110, 104, 101, 114, 105, 116, 115, 99, 104, 101, 100]

/-- The string literal "schedpolicy". -/
def str_schedpolicy : List Nat :=
  [115, 99, 104, 101, 100, 112, 111, 108, 105, 99, 121]

/-- The string literal "file_schedparam". -/
def str_file_schedparam : List Nat :=
  [102, 105, 108, 101, 95, 115, 99, 104, 101, 100, 112, 97, 114, 97, 109]

/-- The string literal "usb_schedparam". -/
def str_usb_schedparam : List Nat :=
  [117, 115, 98, 95, 115, 99, 104, 101, 100, 112, 97, 114, 97, 109]

/-- One turn of the `while (fgets(buf, sizeof(buf), fp))` loop of
`__read_mtp_conf`, `buf` being the bytes `fgets` stored. The result is `g_conf`
after the turn, with `true` when the loop goes on (`continue`, or the end of
the body) and `false` on `break`. -/
def read_mtp_conf_line (buf : List Nat) (g : mtp_config_t) : Bool × mtp_config_t :=
  if buf.head? = some 35 ∨ buf.head? = some 10 then (true, g)
  else
    match strrchr (c_str buf) 10 with
    | none => (false, g)
    | some i =>
      match strtok_r ((c_str buf).take i) [61] with
      | (none, _) => (true, g)
      | (some token, saveptr) =>
        if strcasecmp token str_mmap_threshold = 0 then
          match (strtok_r saveptr [61]).1 with
          | none => (true, g)
          | some token => (true, { g with mmap_threshold := atoi token })
        else if strcasecmp token str_init_rx_ipc_size = 0 then
          match (strtok_r saveptr [61]).1 with
          | none => (true, g)
          | some token => (true, { g with init_rx_ipc_size := atoi token })
        else if strcasecmp token str_init_tx_ipc_size = 0 then
          match (strtok_r saveptr [61]).1 with
          | none => (true, g)
          | some token => (true, { g with init_tx_ipc_size := atoi token })
        else if strcasecmp token str_max_rx_ipc_size = 0 then
          match (strtok_r saveptr [61]).1 with
          | none => (true, g)
          | some token => (true, { g with max_rx_ipc_size := atoi token })
        else if strcasecmp token str_max_tx_ipc_size = 0 then
          match (strtok_r saveptr [61]).1 with
          | none => (true, g)
          | some token => (true, { g with max_tx_ipc_size := atoi token })
        else if strcasecmp token str_read_usb_size = 0 then
          match (strtok_r saveptr [61]).1 with
          | none => (true, g)
          | some token => (true, { g with read_usb_size := atoi token })
        else if strcasecmp token str_write_usb_size = 0 then
          match (strtok_r saveptr [61]).1 with
          | none => (true, g)
          | some token => (true, { g with write_usb_size := atoi token })
        else if strcasecmp token str_read_file_size = 0 then
          match (strtok_r saveptr [61]).1 with
          | none => (true, g)
          | some token => (true, { g with read_file_size := atoi token })
        else if strcasecmp token str_write_file_size = 0 then
          match (strtok_r saveptr [61]).1 with
          | none => (true, g)
          | some token => (true, { g with write_file_size := atoi token })
        else if strcasecmp token str_max_io_buf_size = 0 then
          match (strtok_r saveptr [61]).1 with
          | none => (true, g)
          | some token => (true, { g with max_io_buf_size := atoi token })
        else if strcasecmp token str_read_file_delay = 0 then
          match (strtok_r saveptr [61]).1 with
          | none => (true, g)
          | some token => (true, { g with read_file_delay := atoi token })
        else if strcasecmp token str_support_pthread_sched = 0 then
          match (strtok_r saveptr [61]).1 with
          | none => (true, g)
          | some token => (true, { g with support_pthread_sched := decide (atoi token ≠ 0) })
        else if strcasecmp token str_inheritsched = 0 then
          match (strtok_r saveptr [61]).1 with
          | none => (true, g)
          | some token => (true, { g with inheritsched := token.headD 0 })
        else if strcasecmp token str_schedpolicy = 0 then
          match (strtok_r saveptr [61]).1 with
          | none => (true, g)
          | some token => (true, { g with schedpolicy := token.headD 0 })
        else if strcasecmp token str_file_schedparam = 0 then
          match (strtok_r saveptr [61]).1 with
          | none => (true, g)
          | some token => (true, { g with file_schedparam := atoi token })
        else if strcasecmp token str_usb_schedparam = 0 then
          match (strtok_r saveptr [61]).1 with
          | none => (true, g)
          | some token => (true, { g with usb_schedparam := atoi token })
        else (true, g)

/-- The `while` loop of `__read_mtp_conf` on the stream `fp`, for at most
`fuel` calls of `fgets`. Each call that does not end the loop takes at least
one byte off the stream, so `fp.length` calls are always enough. -/
def read_mtp_conf_loop : Nat → List Nat → mtp_config_t → mtp_config_t
  | 0, _, g => g
  | fuel + 1, fp, g =>
    match fgets 256 fp with
    | none => g
    | some (buf, fp1) =>
      match read_mtp_conf_line buf g with
      | (true, g1) => read_mtp_conf_loop fuel fp1 g1
      | (false, g1) => g1

/-- The assignments at the head of `__read_mtp_conf`. -/
def read_mtp_conf_defaults (d : mtp_defaults) (g : mtp_config_t) : mtp_config_t :=
  let g := { g with
    mmap_threshold := d.MTP_MMAP_THRESHOLD
    read_usb_size := d.MTP_READ_USB_SIZE
    write_usb_size := d.MTP_WRITE_USB_SIZE
    read_file_size := d.MTP_READ_FILE_SIZE
    write_file_size := d.MTP_WRITE_FILE_SIZE
    init_rx_ipc_size := d.MTP_INIT_RX_IPC_SIZE
    init_tx_ipc_size := d.MTP_INIT_TX_IPC_SIZE
    max_rx_ipc_size := d.MTP_MAX_RX_IPC_SIZE
    max_tx_ipc_size := d.MTP_MAX_TX_IPC_SIZE
    max_io_buf_size := d.MTP_MAX_IO_BUF_SIZE
    read_file_delay := d.MTP_READ_FILE_DELAY }
  if d.MTP_SUPPORT_PTHREAD_SCHED ≠ 0 then
    { g with
      support_pthread_sched := decide (d.MTP_SUPPORT_PTHREAD_SCHED ≠ 0)
      inheritsched := d.MTP_INHERITSCHED
      schedpolicy := d.MTP_SCHEDPOLICY
      file_schedparam := d.MTP_FILE_SCHEDPARAM
      usb_schedparam := d.MTP_USB_SCHEDPARAM }
  else g

/-- The function `__read_mtp_conf`: `file` is what `fopen(MTP_CONFIG_FILE_PATH)`
gives (`none` for NULL, else the content of the file), `g` is `g_conf` before
the call and the result is `g_conf` after it. -/
def __read_mtp_conf (d : mtp_defaults) (file : Option (List Nat)) (g : mtp_config_t) :
    mtp_config_t :=
  match file with
  | none => { read_mtp_conf_defaults d g with is_init := true }
  | some fp =>
    { read_mtp_conf_loop fp.length fp (read_mtp_conf_defaults d g) with is_init := true }

/-! ## Buffers -/

/-- The bytes `bytes` stored in the array `mem` from index `off` on; `none` when
they do not fit in the array (a write out of bounds, whose behaviour is
undefined). -/
def write_bytes (mem : List Nat) (off : Nat) (bytes : List Nat) : Option (List Nat) :=
  if off + bytes.length ≤ mem.length then
    some (mem.take off ++ bytes ++ mem.drop (off + bytes.length))
  else none

/-- The `n` bytes `strncpy(dst, src, n)` stores: the string at `src`, cut at `n`
bytes, and NUL bytes up to `n` when it is shorter. -/
def strncpy_bytes (src : List Nat) (n : Nat) : List Nat :=
  (c_str src).take n ++ List.replicate (n - (c_str src).length) 0

/-- The function `strncpy(dst, src, n)`, with `dst` the array the pointer points to and `src`
the bytes at the source. -/
def strncpy (dst : List Nat) (src : List Nat) (n : Nat) : Option (List Nat) :=
  write_bytes dst 0 (strncpy_bytes src n)

/-- The function `strncat(dst, src, n)`: at most `n` bytes of the string at `src`, and a NUL,
stored from the end of the string at `dst` on; undefined when `dst` holds no
NUL. -/
def strncat (dst : List Nat) (src : List Nat) (n : Nat) : Option (List Nat) :=
  if 0 ∈ dst then write_bytes dst (c_str dst).length ((c_str src).take n ++ [0])
  else none

/-- The function `g_snprintf(dst + off, n, ...)` for the formatted text `text`: at most
`n - 1` bytes of it and a NUL are stored, nothing when `n` is 0. -/
def g_snprintf (dst : List Nat) (off : Nat) (n : Nat) (text : List Nat) : Option (List Nat) :=
  if n = 0 then some dst else write_bytes dst off (text.take (n - 1) ++ [0])

/-- The upper-case hexadecimal digit of a value below 16. -/
def hex_digit (d : Nat) : Nat :=
  if d < 10 then 48 + d else 55 + d

/-- The text `%02X` gives for an `unsigned int`: its hexadecimal digits in upper
case, no leading zero, padded with zeros on the left to two digits. -/
def format_02X (v : Nat) : List Nat :=
  let digits := ((List.range 8).reverse.map (fun k => v / 16 ^ k % 16)).dropWhile (fun x => x == 0)
  (List.replicate (2 - digits.length) 0 ++ digits).map hex_digit

/-- The `int` a `char` argument of a variadic function is promoted to, for the
byte `b` of the `char`: on a platform where plain `char` is signed the bytes
`0x80..0xFF` are the negative values. -/
def char_to_int (char_signed : Bool) (b : Nat) : Int :=
  if char_signed ∧ 128 ≤ b then (b : Int) - 256 else (b : Int)

/-- The `unsigned int` that `%X` reads an `int` argument as. -/
def int_to_unsigned (x : Int) : Nat :=
  (x % 2 ^ 32).toNat

/-! ## `mtp_util.c` -/

/-- The loop `for (i = 0; i < MD5_HASH_LEN; i++)` of `_util_get_serial`, from
index `i` on with `todo` turns left. -/
def _util_get_serial_loop (char_signed : Bool) (hash_value : List Nat) :
    Nat → Nat → List Nat → Option (List Nat)
  | _, 0, serial => some serial
  | i, todo + 1, serial =>
    match g_snprintf serial (i * 2) 3
        (format_02X (int_to_unsigned (char_to_int char_signed (hash_value.getD i 0)))) with
    | none => none
    | some serial1 => _util_get_serial_loop char_signed hash_value (i + 1) todo serial1

/-- The function `_util_get_serial`. `char_signed` tells whether plain `char` is
signed on the platform, `MD5_HASH_LEN` and `hash_value` (the array initialised
with `HASH_VALUE`) come from headers that are not among the sources. `serial` is
`none` for NULL, else the array the pointer points to. The result is the value
returned and the array afterwards, and `none` when a write falls outside the
array. `MD5_HASH_LEN` is taken below 65536, the range of the counter `i`. -/
def _util_get_serial (char_signed : Bool) (MD5_HASH_LEN : Nat) (hash_value : List Nat)
    (serial : Option (List Nat)) (len : Nat) : Option (Bool × Option (List Nat)) :=
  match serial with
  | none => some (false, none)
  | some mem =>
    if len ≤ MD5_HASH_LEN * 2 then some (false, some mem)
    else
      match _util_get_serial_loop char_signed hash_value 0 MD5_HASH_LEN mem with
      | none => none
      | some mem1 => some (true, some mem1)

/-- The two upper-case hexadecimal digits of each byte of `hash`, in order. -/
def hex_of_bytes : List Nat → List Nat
  | [] => []
  | b :: bs => hex_digit (b / 16) :: hex_digit (b % 16) :: hex_of_bytes bs

/-- The type `storage_type_e` of the platform. -/
inductive storage_type_e where
  | STORAGE_TYPE_INTERNAL
  | STORAGE_TYPE_EXTERNAL
  | STORAGE_TYPE_EXTENDED_INTERNAL
  deriving DecidableEq, Repr

/-- The arguments the platform passes to the callback for one device; `path` is
`none` for NULL, else the bytes at the pointer. -/
structure storage_device where
  storage_id : Int
  type : storage_type_e
  state : Int
  path : Option (List Nat)
  deriving DecidableEq, Repr

/-- The callback `_util_device_external_supported_cb`: `user_data` is `none` for
NULL, else the array it points to. The result is the value returned and the
array afterwards, `none` when the behaviour is undefined (a write through NULL
or outside the array). -/
def _util_device_external_supported_cb (dev : storage_device)
    (user_data : Option (List Nat)) : Option (Bool × Option (List Nat)) :=
  if dev.type = storage_type_e.STORAGE_TYPE_EXTERNAL ∧ dev.path ≠ none then
    match dev.path, user_data with
    | some path, some storage_path =>
      match strncpy storage_path path ((c_str path).length + 1) with
      | none => none
      | some m1 =>
        match write_bytes m1 (c_str path).length [0] with
        | none => none
        | some m2 => some (true, some m2)
    | _, _ => none
  else some (true, user_data)

/-- The platform function `storage_foreach_device_supported` (libstorage, not part
of this repository), as its documentation describes it: it calls the callback
on each device it enumerates, in order, stops when the callback returns false,
and reports an error code (`STORAGE_ERROR_NONE` is 0). `devices` is what it
enumerates and `error` the code it reports. -/
def storage_foreach_device_supported (devices : List storage_device) (error : Int)
    (user_data : Option (List Nat)) : Option (Int × Option (List Nat)) :=
  match devices with
  | [] => some (error, user_data)
  | dev :: rest =>
    match _util_device_external_supported_cb dev user_data with
    | none => none
    | some (true, data1) => storage_foreach_device_supported rest error data1
    | some (false, data1) => some (error, data1)

/-- The function `_util_get_external_path`: `devices` and `error` are what the
platform enumerates and reports, `MTP_EXTERNAL_PATH_CHAR` is the text of the
string literal of that name. -/
def _util_get_external_path (MTP_EXTERNAL_PATH_CHAR : List Nat)
    (devices : List storage_device) (error : Int) (external_path : Option (List Nat)) :
    Option (Option (List Nat)) :=
  match storage_foreach_device_supported devices error external_path with
  | none => none
  | some (err, path1) =>
    if err ≠ 0 then
      match path1 with
      | none => some none
      | some m =>
        match strncpy m MTP_EXTERNAL_PATH_CHAR (MTP_EXTERNAL_PATH_CHAR.length + 1) with
        | none => none
        | some m1 =>
          match write_bytes m1 (MTP_EXTERNAL_PATH_CHAR.length + 1 - 1) [0] with
          | none => none
          | some m2 => some (some m2)
    else some path1

/-- The field of `struct passwd` the code reads: `pw_name`, `none` for NULL. -/
structure passwd where
  pw_name : Option (List Nat)
  deriving DecidableEq, Repr

/-- The string literal "/media". -/
def str_media : List Nat :=
  [47, 109, 101, 100, 105, 97]

/-- The function `_util_get_internal_path`: `pwd` is what `getpwuid(ACTIVE_USER)`
returns (`none` for NULL), `MTP_USER_DIRECTORY` and `MTP_INTERNAL_PATH_CHAR` are the
texts of the string literals of those names. The result is the array afterwards
(`none` inside for a NULL pointer), and `none` when the behaviour is undefined. -/
def _util_get_internal_path (MTP_USER_DIRECTORY MTP_INTERNAL_PATH_CHAR : List Nat)
    (pwd : Option passwd) (internal_path : Option (List Nat)) :
    Option (Option (List Nat)) :=
  match pwd with
  | none => none
  | some p =>
    match p.pw_name with
    | none =>
      match internal_path with
      | none => none
      | some m =>
        match strncpy m MTP_USER_DIRECTORY (MTP_USER_DIRECTORY.length + 1) with
        | none => none
        | some m1 =>
          match write_bytes m1 (MTP_USER_DIRECTORY.length + 1 - 1) [0] with
          | none => none
          | some m2 => some (some m2)
    | some active_name =>
      match internal_path with
      | none => some none
      | some m =>
        match strncpy m MTP_INTERNAL_PATH_CHAR (MTP_INTERNAL_PATH_CHAR.length + 1) with
        | none => none
        | some m1 =>
          match strncat m1 active_name ((c_str active_name).length + 1) with
          | none => none
          | some m2 =>
            match strncat m2 str_media 7 with
            | none => none
            | some m3 =>
              match write_bytes m3 (c_str m3).length [0] with
              | none => none
              | some m4 => some (some m4)

/-! ## `mtp_init.c`: `_mtp_init` -/

/-- The operation states `_mtp_init` sets. -/
inductive mtp_state_t where
  | MTP_STATE_STOPPED
  | MTP_STATE_INITIALIZING
  deriving DecidableEq, Repr

/-- The conversion of an `int` to `gsize` (`unsigned long`, 64 bits on an LP64
platform): reduction modulo `2 ^ 64`. -/
def int_to_gsize (x : Int) : Nat :=
  (x % 2 ^ 64).toNat

/-- The calls `_mtp_init` makes, with the arguments that matter: the `int` given
to `mallopt`, the `gsize` given to `g_malloc`. -/
inductive init_call where
  | __read_mtp_conf
  | mallopt_M_MMAP_THRESHOLD (value : Int)
  | mallopt_M_TRIM_THRESHOLD (value : Int)
  | __init_mtp_info
  | _transport_init_status_info
  | _transport_set_mtp_operation_state (state : mtp_state_t)
  | g_malloc (size : Nat)
  | _util_get_external_path
  | access
  | _util_dir_create
  | _init_mtp_device
  | _features_supported_info
  | _device_install_storage
  | _inoti_init_filesystem_evnts
  | mtp_end_event
  deriving DecidableEq, Repr

/-- What `_mtp_init` gets from outside: the configuration file, the pointer
`g_malloc` returns for a size (`none` for NULL), whether `access(ext_path, F_OK)` finds the
external storage directory, whether `_util_dir_create` creates it, and whether
`MTP_SUPPORT_OBJECTADDDELETE_EVENT` is defined. -/
structure init_env where
  conf_file : Option (List Nat)
  g_malloc : Nat → Option Nat
  access_ok : Bool
  dir_create_ok : Bool
  MTP_SUPPORT_OBJECTADDDELETE_EVENT : Bool

/-- The part of `g_mtp_mgr` that `_mtp_init` reads: `ftemp_st.temp_buff`, `none`
for NULL. -/
structure mtp_mgr_t where
  temp_buff : Option Nat
  deriving DecidableEq, Repr

/-- The function `__init_mtp_info`: the `memset` of `ftemp_st` makes `temp_buff`
NULL. -/
def __init_mtp_info (_mgr : mtp_mgr_t) : mtp_mgr_t :=
  { temp_buff := none }

/-- The function `_mtp_init`: the calls it makes, in order, with `g_conf` and
`g_mtp_mgr` on return. The product `g_conf.mmap_threshold * 2` is a product of
`int`: it is reduced to 32 bits, which is what gcc computes where C leaves the
overflow undefined. The `int` `g_conf.write_file_size` is converted to the `gsize`
that `g_malloc` takes. -/
def _mtp_init (d : mtp_defaults) (env : init_env) (g_conf : mtp_config_t)
    (g_mgr : mtp_mgr_t) : List init_call × mtp_config_t × mtp_mgr_t :=
  let conf := __read_mtp_conf d env.conf_file g_conf
  let t1 := [init_call.__read_mtp_conf]
  let t2 :=
    if conf.mmap_threshold ≠ 0 then
      t1 ++ [init_call.mallopt_M_MMAP_THRESHOLD conf.mmap_threshold,
        init_call.mallopt_M_TRIM_THRESHOLD (to_int (conf.mmap_threshold * 2))]
    else t1
  let mgr := __init_mtp_info g_mgr
  let t3 := t2 ++ [init_call.__init_mtp_info, init_call._transport_init_status_info,
    init_call._transport_set_mtp_operation_state mtp_state_t.MTP_STATE_INITIALIZING]
  let MTP_INIT_FAIL := fun (t : List init_call) (m : mtp_mgr_t) =>
    (t ++ [init_call._transport_set_mtp_operation_state mtp_state_t.MTP_STATE_STOPPED,
      init_call.mtp_end_event], conf, m)
  let external_storage := fun (t : List init_call) (m : mtp_mgr_t) =>
    let t4 := t ++ [init_call._util_get_external_path, init_call.access]
    let device := fun (t : List init_call) =>
      let t5 := t ++ [init_call._init_mtp_device, init_call._features_supported_info,
        init_call._device_install_storage]
      if env.MTP_SUPPORT_OBJECTADDDELETE_EVENT then
        (t5 ++ [init_call._inoti_init_filesystem_evnts], conf, m)
      else (t5, conf, m)
    if env.access_ok = false then
      if env.dir_create_ok = false then MTP_INIT_FAIL (t4 ++ [init_call._util_dir_create]) m
      else device (t4 ++ [init_call._util_dir_create])
    else device t4
  match mgr.temp_buff with
  | none =>
    match env.g_malloc (int_to_gsize conf.write_file_size) with
    | none =>
      MTP_INIT_FAIL (t3 ++ [init_call.g_malloc (int_to_gsize conf.write_file_size)])
        { temp_buff := none }
    | some p =>
      external_storage (t3 ++ [init_call.g_malloc (int_to_gsize conf.write_file_size)])
        { temp_buff := some p }
  | some _ => external_storage t3 mgr

/-- The operation states a sequence of calls sets, in order. -/
def states_set : List init_call → List mtp_state_t
  | [] => []
  | init_call._transport_set_mtp_operation_state s :: t => s :: states_set t
  | _ :: t => states_set t

/-! ## Vocabulary of the specification of the configuration file -/

/-- The 16 recognised option names, in the order `__read_mtp_conf` tests them. -/
def conf_option_names : List (List Nat) :=
  [str_mmap_threshold,
   str_init_rx_ipc_size,
   str_init_tx_ipc_size,
   str_max_rx_ipc_size,
   str_max_tx_ipc_size,
   str_read_usb_size,
   str_write_usb_size,
   str_read_file_size,
   str_write_file_size,
   str_max_io_buf_size,
   str_read_file_delay,
   str_support_pthread_sched,
   str_inheritsched,
   str_schedpolicy,
   str_file_schedparam,
   str_usb_schedparam]

/-- Equality of two strings ignoring ASCII case. -/
def eq_ignore_case (a b : List Nat) : Prop :=
  a.map tolower = b.map tolower

instance (a b : List Nat) : Decidable (eq_ignore_case a b) :=
  inferInstanceAs (Decidable (a.map tolower = b.map tolower))

/-- The text of a line before its first `=` (the whole line when it has none). -/
def text_before_first_eq (line : List Nat) : List Nat :=
  line.takeWhile (fun c => c != 61)

/-- The first non-empty `=`-separated piece of a line: the text between the
`=` characters the line starts with, if any, and the next `=`. It is empty
when the line is empty or made of `=` only. -/
def first_token (line : List Nat) : List Nat :=
  (line.dropWhile (fun c => c == 61)).takeWhile (fun c => c != 61)

/-- What follows the first token of a line. -/
def after_first_token (line : List Nat) : List Nat :=
  (line.dropWhile (fun c => c == 61)).dropWhile (fun c => c != 61)

/-- The second non-empty `=`-separated piece of a line, empty when there is
none. -/
def second_token (line : List Nat) : List Nat :=
  first_token (after_first_token line)

/-- The 16 options of the configuration file. -/
inductive conf_option where
  | mmap_threshold
  | init_rx_ipc_size
  | init_tx_ipc_size
  | max_rx_ipc_size
  | max_tx_ipc_size
  | read_usb_size
  | write_usb_size
  | read_file_size
  | write_file_size
  | max_io_buf_size
  | read_file_delay
  | support_pthread_sched
  | inheritsched
  | schedpolicy
  | file_schedparam
  | usb_schedparam
  deriving DecidableEq, Repr

/-- The name of an option, as written in the file. -/
def conf_option.name : conf_option → List Nat
  | .mmap_threshold => str_mmap_threshold
  | .init_rx_ipc_size => str_init_rx_ipc_size
  | .init_tx_ipc_size => str_init_tx_ipc_size
  | .max_rx_ipc_size => str_max_rx_ipc_size
  | .max_tx_ipc_size => str_max_tx_ipc_size
  | .read_usb_size => str_read_usb_size
  | .write_usb_size => str_write_usb_size
  | .read_file_size => str_read_file_size
  | .write_file_size => str_write_file_size
  | .max_io_buf_size => str_max_io_buf_size
  | .read_file_delay => str_read_file_delay
  | .support_pthread_sched => str_support_pthread_sched
  | .inheritsched => str_inheritsched
  | .schedpolicy => str_schedpolicy
  | .file_schedparam => str_file_schedparam
  | .usb_schedparam => str_usb_schedparam

/-- What a line `key=value` is specified to do for the option its key names:
the field of that name is set from `value` (`atoi` for the 13 integer options,
`atoi(value) != 0` for `support_pthread_sched`, the first character for
`inheritsched` and `schedpolicy`) and no other field changes. -/
def conf_option.assign (o : conf_option) (value : List Nat) (g : mtp_config_t) :
    mtp_config_t :=
  match o with
  | .mmap_threshold => { g with mmap_threshold := atoi value }
  | .init_rx_ipc_size => { g with init_rx_ipc_size := atoi value }
  | .init_tx_ipc_size => { g with init_tx_ipc_size := atoi value }
  | .max_rx_ipc_size => { g with max_rx_ipc_size := atoi value }
  | .max_tx_ipc_size => { g with max_tx_ipc_size := atoi value }
  | .read_usb_size => { g with read_usb_size := atoi value }
  | .write_usb_size => { g with write_usb_size := atoi value }
  | .read_file_size => { g with read_file_size := atoi value }
  | .write_file_size => { g with write_file_size := atoi value }
  | .max_io_buf_size => { g with max_io_buf_size := atoi value }
  | .read_file_delay => { g with read_file_delay := atoi value }
  | .support_pthread_sched => { g with support_pthread_sched := decide (atoi value ≠ 0) }
  | .inheritsched => { g with inheritsched := value.headD 0 }
  | .schedpolicy => { g with schedpolicy := value.headD 0 }
  | .file_schedparam => { g with file_schedparam := atoi value }
  | .usb_schedparam => { g with usb_schedparam := atoi value }

/-- The option whose branch of the `if ... else if` chain of `__read_mtp_conf` a
token takes: the first one `strcasecmp` finds equal to it. -/
def conf_lookup (token : List Nat) : Option conf_option :=
  if strcasecmp token str_mmap_threshold = 0 then some .mmap_threshold
  else if strcasecmp token str_init_rx_ipc_size = 0 then some .init_rx_ipc_size
  else if strcasecmp token str_init_tx_ipc_size = 0 then some .init_tx_ipc_size
  else if strcasecmp token str_max_rx_ipc_size = 0 then some .max_rx_ipc_size
  else if strcasecmp token str_max_tx_ipc_size = 0 then some .max_tx_ipc_size
  else if strcasecmp token str_read_usb_size = 0 then some .read_usb_size
  else if strcasecmp token str_write_usb_size = 0 then some .write_usb_size
  else if strcasecmp token str_read_file_size = 0 then some .read_file_size
  else if strcasecmp token str_write_file_size = 0 then some .write_file_size
  else if strcasecmp token str_max_io_buf_size = 0 then some .max_io_buf_size
  else if strcasecmp token str_read_file_delay = 0 then some .read_file_delay
  else if strcasecmp token str_support_pthread_sched = 0 then some .support_pthread_sched
  else if strcasecmp token str_inheritsched = 0 then some .inheritsched
  else if strcasecmp token str_schedpolicy = 0 then some .schedpolicy
  else if strcasecmp token str_file_schedparam = 0 then some .file_schedparam
  else if strcasecmp token str_usb_schedparam = 0 then some .usb_schedparam
  else none

/-- The 16 options, in the order of `conf_option_names`. -/
def conf_options : List conf_option :=
  [.mmap_threshold,
   .init_rx_ipc_size,
   .init_tx_ipc_size,
   .max_rx_ipc_size,
   .max_tx_ipc_size,
   .read_usb_size,
   .write_usb_size,
   .read_file_size,
   .write_file_size,
   .max_io_buf_size,
   .read_file_delay,
   .support_pthread_sched,
   .inheritsched,
   .schedpolicy,
   .file_schedparam,
   .usb_schedparam]

/-- The option a key names: the one whose name equals the key ignoring ASCII
case, if any. -/
def option_of_key (key : List Nat) : Option conf_option :=
  conf_options.find? (fun o => decide (eq_ignore_case key o.name))

/-- What a line of the configuration file (given without its newline) is
specified to do to `g_conf`: nothing for a comment line, for a line whose key
(its first token) names no option, and for a line without a value (a second
token); otherwise the assignment of the value to the option the key names. -/
def conf_line_effect (line : List Nat) (g : mtp_config_t) : mtp_config_t :=
  if line.head? = some 35 then g
  else
    match option_of_key (first_token line) with
    | none => g
    | some o => if second_token line = [] then g else o.assign (second_token line) g

/-- The text file made of the given lines, each followed by a newline. -/
def unlines : List (List Nat) → List Nat
  | [] => []
  | l :: ls => l ++ 10 :: unlines ls

/-- A configuration `g_conf` may hold before `__read_mtp_conf` runs, used in the
examples. -/
def conf_example : mtp_config_t :=
  { is_init := false, mmap_threshold := 1, init_rx_ipc_size := 2, init_tx_ipc_size := 3,
    max_rx_ipc_size := 4, max_tx_ipc_size := 5, read_usb_size := 6, write_usb_size := 7,
    read_file_size := 8, write_file_size := 9, max_io_buf_size := 10, read_file_delay := 11,
    support_pthread_sched := false, inheritsched := 12, schedpolicy := 13,
    file_schedparam := 14, usb_schedparam := 15 }

/-- A set of built-in defaults with scheduling support compiled in, used in
the examples. -/
def defaults_example : mtp_defaults :=
  { MTP_MMAP_THRESHOLD := 524288, MTP_READ_USB_SIZE := 4096, MTP_WRITE_USB_SIZE := 4096,
    MTP_READ_FILE_SIZE := 524288, MTP_WRITE_FILE_SIZE := 524288,
    MTP_INIT_RX_IPC_SIZE := 32768, MTP_INIT_TX_IPC_SIZE := 262144,
    MTP_MAX_RX_IPC_SIZE := 32768, MTP_MAX_TX_IPC_SIZE := 262144,
    MTP_MAX_IO_BUF_SIZE := 10485760, MTP_READ_FILE_DELAY := 0,
    MTP_SUPPORT_PTHREAD_SCHED := 1, MTP_INHERITSCHED := 105, MTP_SCHEDPOLICY := 111,
    MTP_FILE_SCHEDPARAM := 0, MTP_USB_SCHEDPARAM := 0 }

/-- The line `=mmap_threshold=5`, which starts with the separator. -/
def line_leading_eq : List Nat :=
  [61, 109, 109, 97, 112, 95, 116, 104, 114, 101, 115, 104, 111, 108, 100, 61, 53]

/-- The line `fo\0o=1`, which holds a NUL byte. -/
def line_with_nul : List Nat :=
  [102, 111, 0, 111, 61, 49]

/-- The line `foo=1`, whose key names no option. -/
def line_unknown : List Nat :=
  [102, 111, 111, 61, 49]

/-- The file whose only line is `mmap_threshold=5`. -/
def file_one_line : List Nat :=
  [109, 109, 97, 112, 95, 116, 104, 114, 101, 115, 104, 111, 108, 100, 61, 53, 10]

/-- A value of 251 characters: 250 times `0`, then `5`. -/
def value_long : List Nat :=
  List.replicate 250 48 ++ [53]

/-- The value `5\0`, which ends with a NUL byte. -/
def value_with_nul : List Nat :=
  [53, 0]

/-- The value `=5`, which starts with the separator. -/
def value_leading_eq : List Nat :=
  [61, 53]

/-- The key `Max_IO_Buf_Size`. -/
def key_mixed_case : List Nat :=
  [77, 97, 120, 95, 73, 79, 95, 66, 117, 102, 95, 83, 105, 122, 101]

/-- The value `4096`. -/
def value_4096 : List Nat :=
  [52, 48, 57, 54]

/-- The value a line of the configuration file (given without its newline)
gives to the option called `name`: the second token of the line, when the line
is not a comment, its key (first token) equals `name` ignoring ASCII case, and
it has a value. -/
def line_value (name : List Nat) (line : List Nat) : Option (List Nat) :=
  if line.head? = some 35 then none
  else if eq_ignore_case (first_token line) name ∧ second_token line ≠ [] then
    some (second_token line)
  else none

/-- The value on the last `key=value` line that names the option `name`. -/
def last_value (name : List Nat) (lines : List (List Nat)) : Option (List Nat) :=
  (lines.filterMap (line_value name)).getLast?

/-- The value an integer parameter is specified to end with: `atoi` of the value
on the last line that names it, and `otherwise` when no line names it. -/
def conf_value (name : List Nat) (otherwise : Int) (lines : List (List Nat)) : Int :=
  match last_value name lines with
  | some v => atoi v
  | none => otherwise

/-- The integer field of `g_conf` an option names (0 for the three options that
are not integers). -/
def conf_option.get_int (o : conf_option) (g : mtp_config_t) : Int :=
  match o with
  | .mmap_threshold => g.mmap_threshold
  | .init_rx_ipc_size => g.init_rx_ipc_size
  | .init_tx_ipc_size => g.init_tx_ipc_size
  | .max_rx_ipc_size => g.max_rx_ipc_size
  | .max_tx_ipc_size => g.max_tx_ipc_size
  | .read_usb_size => g.read_usb_size
  | .write_usb_size => g.write_usb_size
  | .read_file_size => g.read_file_size
  | .write_file_size => g.write_file_size
  | .max_io_buf_size => g.max_io_buf_size
  | .read_file_delay => g.read_file_delay
  | .support_pthread_sched => 0
  | .inheritsched => 0
  | .schedpolicy => 0
  | .file_schedparam => g.file_schedparam
  | .usb_schedparam => g.usb_schedparam

/-- The 13 integer options. -/
def conf_option.is_int (o : conf_option) : Bool :=
  match o with
  | .support_pthread_sched => false
  | .inheritsched => false
  | .schedpolicy => false
  | _ => true

/-- A line that is empty or a comment (it begins with `#`). -/
def is_blank_or_comment (line : List Nat) : Bool :=
  line.isEmpty || line.head? == some 35

/-- The built-in defaults of `defaults_example` with scheduling support compiled
out. -/
def defaults_no_sched : mtp_defaults :=
  { defaults_example with MTP_SUPPORT_PTHREAD_SCHED := 0 }

/-- The lines `\0` and `mmap_threshold=5`: the first one holds a NUL byte. -/
def lines_nul : List (List Nat) :=
  [[0], [109, 109, 97, 112, 95, 116, 104, 114, 101, 115, 104, 111, 108, 100, 61, 53]]

/-- The lines `# buffers`, `mmap_threshold=5`, the empty line, `foo=1`,
`MMAP_THRESHOLD=7` and `read_usb_size`. -/
def lines_example : List (List Nat) :=
  [[35, 32, 98, 117, 102, 102, 101, 114, 115],
   [109, 109, 97, 112, 95, 116, 104, 114, 101, 115, 104, 111, 108, 100, 61, 53],
   [],
   [102, 111, 111, 61, 49],
   [77, 77, 65, 80, 95, 84, 72, 82, 69, 83, 72, 79, 76, 68, 61, 55],
   [114, 101, 97, 100, 95, 117, 115, 98, 95, 115, 105, 122, 101]]

/-- A list of bytes whose last one, if any, is a newline: a sequence of
complete lines. -/
def ends_lines (pre : List Nat) : Prop :=
  pre = [] ∨ pre.getLast? = some 10

/-- The text `read_usb_size=9`, without a newline. -/
def line_unterminated : List Nat :=
  [114, 101, 97, 100, 95, 117, 115, 98, 95, 115, 105, 122, 101, 61, 57]

/-- Whether the call `x` occurs in a sequence of calls with the call `y`
somewhere after it. -/
def called_before (x y : init_call) : List init_call → Bool
  | [] => false
  | c :: t => if c = x then decide (y ∈ t) else called_before x y t

/-- An environment where `g_malloc` returns NULL. -/
def env_no_memory : init_env :=
  { conf_file := none, g_malloc := fun _ => none, access_ok := true, dir_create_ok := true,
    MTP_SUPPORT_OBJECTADDDELETE_EVENT := true }

/-- An environment where `g_malloc` succeeds and the external storage directory
is missing but can be created. -/
def env_created : init_env :=
  { conf_file := none, g_malloc := fun _ => some 4096, access_ok := false,
    dir_create_ok := true, MTP_SUPPORT_OBJECTADDDELETE_EVENT := false }

/-- The paths of the enumerated devices of type `STORAGE_TYPE_EXTERNAL` whose path
is not NULL, in the order of the enumeration. -/
def external_paths (devices : List storage_device) : List (List Nat) :=
  devices.filterMap (fun dev =>
    if dev.type = storage_type_e.STORAGE_TYPE_EXTERNAL then dev.path.map c_str else none)

/-- An enumeration of four devices: an internal one at `/home`, an external one
at `/opt/sdcard`, an external one without a path and an external one at
`/mnt/usb`. -/
def devices_example : List storage_device :=
  [{ storage_id := 1, type := storage_type_e.STORAGE_TYPE_INTERNAL, state := 0,
     path := some [47, 104, 111, 109, 101] },
   { storage_id := 2, type := storage_type_e.STORAGE_TYPE_EXTERNAL, state := 0,
     path := some [47, 111, 112, 116, 47, 115, 100, 99, 97, 114, 100] },
   { storage_id := 3, type := storage_type_e.STORAGE_TYPE_EXTERNAL, state := 0,
     path := none },
   { storage_id := 4, type := storage_type_e.STORAGE_TYPE_EXTERNAL, state := 0,
     path := some [47, 109, 110, 116, 47, 117, 115, 98] }]

/-- The text `/mnt/usb`. -/
def str_mnt_usb : List Nat :=
  [47, 109, 110, 116, 47, 117, 115, 98]

/-- The text `/opt/media`, standing for a built-in path. -/
def str_opt_media : List Nat :=
  [47, 111, 112, 116, 47, 109, 101, 100, 105, 97]

/-- The text `/home/`, standing for a built-in path. -/
def str_home : List Nat :=
  [47, 104, 111, 109, 101, 47]

/-- The user name `owner`. -/
def str_owner : List Nat :=
  [111, 119, 110, 101, 114]

/-- The text `/home/owner/media`. -/
def str_home_owner_media : List Nat :=
  [47, 104, 111, 109, 101, 47, 111, 119, 110, 101, 114, 47, 109, 101, 100, 105, 97]

/-- An array of 32 bytes, all `B`. -/
def buffer_example : List Nat :=
  List.replicate 32 66

/-- The file of the two lines `mmap_threshold=1073741824` and
`write_file_size=-1`. -/
def file_large_values : List Nat :=
  [109, 109, 97, 112, 95, 116, 104, 114, 101, 115, 104, 111, 108, 100, 61, 49, 48, 55, 51, 55, 52, 49, 56, 50, 52, 10,
   119, 114, 105, 116, 101, 95, 102, 105, 108, 101, 95, 115, 105, 122, 101, 61, 45, 49, 10]

/-- An array of 8 bytes, all `B`. -/
def buffer_8 : List Nat :=
  List.replicate 8 66

/-- An array of 17 bytes, all `B`. -/
def buffer_17 : List Nat :=
  List.replicate 17 66

/-- A hash of 16 bytes, `80 01 FF 7F 00 AB 10 09 01 02 03 04 05 06 07 08`: three of
them are in `0x80..0xFF`. -/
def hash_example : List Nat :=
  [128, 1, 255, 127, 0, 171, 16, 9, 1, 2, 3, 4, 5, 6, 7, 8]

/-! ## `mtp_util.c`: battery level and phone status -/

/-- What the platform function `vconf_get_int` (vconf, not part of this
repository) does on one call: the code it returns (0 for success) and the value
it stores through the pointer, `none` when it stores nothing. -/
structure vconf_reply where
  result : Int
  stored : Option Int
  deriving DecidableEq, Repr

/-- The call `vconf_get_int(key, &intval)`: the code returned and the variable
`intval` afterwards. -/
def vconf_get_int (platform : vconf_reply) (intval : Int) : Int × Int :=
  (platform.result, platform.stored.getD intval)

/-- The function `_util_get_battery_level`: `platform` is what
`vconf_get_int(VCONFKEY_SYSMAN_BATTERY_CAPACITY, ...)` does. The test of `result`
only writes to the log. -/
def _util_get_battery_level (platform : vconf_reply) : Int :=
  let battery_level : Int := 100
  let (_result, battery_level) := vconf_get_int platform battery_level
  battery_level

/-- The type `phone_state_t` of `g_ph_status`, with the four fields the sources
use; a `phone_status_t` is the integer of the enumeration value. -/
structure phone_state_t where
  usb_state : Int
  mmc_state : Int
  usb_mode_state : Int
  lock_state : Int
  deriving DecidableEq, Repr

/-- The initial value of `g_ph_status`, from `static phone_state_t g_ph_status = { 0 }`. -/
def g_ph_status : phone_state_t :=
  { usb_state := 0, mmc_state := 0, usb_mode_state := 0, lock_state := 0 }

/-- The function `_util_get_local_usb_status`: the value returned and
`g_ph_status` afterwards. -/
def _util_get_local_usb_status (g : phone_state_t) : Int × phone_state_t :=
  (g.usb_state, g)

/-- The function `_util_set_local_usb_status`: `g_ph_status` afterwards. -/
def _util_set_local_usb_status (val : Int) (g : phone_state_t) : phone_state_t :=
  { g with usb_state := val }

/-- The function `_util_get_local_mmc_status`: the value returned and
`g_ph_status` afterwards. -/
def _util_get_local_mmc_status (g : phone_state_t) : Int × phone_state_t :=
  (g.mmc_state, g)

/-- The function `_util_set_local_mmc_status`: `g_ph_status` afterwards. -/
def _util_set_local_mmc_status (val : Int) (g : phone_state_t) : phone_state_t :=
  { g with mmc_state := val }

/-- The function `_util_get_local_usbmode_status`: the value returned and
`g_ph_status` afterwards. -/
def _util_get_local_usbmode_status (g : phone_state_t) : Int × phone_state_t :=
  (g.usb_mode_state, g)

/-- The function `_util_set_local_usbmode_status`: `g_ph_status` afterwards. -/
def _util_set_local_usbmode_status (val : Int) (g : phone_state_t) : phone_state_t :=
  { g with usb_mode_state := val }

/-- The function `_util_get_local_lock_status`: the value returned and
`g_ph_status` afterwards. -/
def _util_get_local_lock_status (g : phone_state_t) : Int × phone_state_t :=
  (g.lock_state, g)

/-- The function `_util_set_local_lock_status`: `g_ph_status` afterwards. -/
def _util_set_local_lock_status (val : Int) (g : phone_state_t) : phone_state_t :=
  { g with lock_state := val }

/-- The four fields of `g_ph_status`. -/
inductive ph_field where
  | usb_state
  | mmc_state
  | usb_mode_state
  | lock_state
  deriving DecidableEq, Repr

/-- A call of one of the eight getters and setters of `g_ph_status`. -/
inductive ph_call where
  | set (field : ph_field) (val : Int)
  | get (field : ph_field)
  deriving DecidableEq, Repr

/-- The setter of a field. -/
def ph_set (field : ph_field) (val : Int) (g : phone_state_t) : phone_state_t :=
  match field with
  | .usb_state => _util_set_local_usb_status val g
  | .mmc_state => _util_set_local_mmc_status val g
  | .usb_mode_state => _util_set_local_usbmode_status val g
  | .lock_state => _util_set_local_lock_status val g

/-- The getter of a field. -/
def ph_get (field : ph_field) (g : phone_state_t) : Int × phone_state_t :=
  match field with
  | .usb_state => _util_get_local_usb_status g
  | .mmc_state => _util_get_local_mmc_status g
  | .usb_mode_state => _util_get_local_usbmode_status g
  | .lock_state => _util_get_local_lock_status g

/-- The value of `g_ph_status` after a sequence of calls made one after the
other. -/
def ph_run : List ph_call → phone_state_t → phone_state_t
  | [], g => g
  | ph_call.set field val :: calls, g => ph_run calls (ph_set field val g)
  | ph_call.get field :: calls, g => ph_run calls (ph_get field g).2

/-- The value a call sets a field to, if it is a call of the setter of that
field. -/
def set_value (field : ph_field) : ph_call → Option Int
  | ph_call.set field1 val => if field1 = field then some val else none
  | ph_call.get _ => none

/-- The value of the most recent call of the setter of a field in a sequence of
calls, `none` when there is none. -/
def last_set (field : ph_field) (calls : List ph_call) : Option Int :=
  (calls.filterMap (set_value field)).getLast?

/-- A sequence of calls: the lock status is set to 1, the USB status to 2, the
lock status is read, then set to 0, and the card status is read. -/
def calls_example : List ph_call :=
  [ph_call.set ph_field.lock_state 1, ph_call.set ph_field.usb_state 2,
   ph_call.get ph_field.lock_state, ph_call.set ph_field.lock_state 0,
   ph_call.get ph_field.mmc_state]

/-! # Theorems -/

set_option maxRecDepth 100000


/-! ## Lemmas on the libc functions -/

theorem c_str_eq_self {l : List Nat} (h : 0 ∉ l) : c_str l = l := by
  unfold c_str
  rw [List.takeWhile_eq_self_iff]
  intro x hx
  have : x ≠ 0 := fun e => h (e ▸ hx)
  simpa using this

theorem c_str_no_nul (l : List Nat) : 0 ∉ c_str l := by
  unfold c_str
  intro h
  have := List.mem_takeWhile_imp h
  simp at this

theorem strrchr_append_newline {l : List Nat} (h : 10 ∉ l) :
    strrchr (l ++ [10]) 10 = some l.length := by
  induction l with
  | nil => simp [strrchr]
  | cons a l ih =>
    have h1 : 10 ∉ l := fun m => h (List.mem_cons_of_mem _ m)
    simp [strrchr, ih h1]

theorem strrchr_none {l : List Nat} {c : Nat} (h : c ∉ l) : strrchr l c = none := by
  induction l with
  | nil => simp [strrchr]
  | cons a l ih =>
    have h1 : c ∉ l := fun m => h (List.mem_cons_of_mem _ m)
    have h2 : a ≠ c := fun e => h (e ▸ List.mem_cons_self _ _)
    simp [strrchr, ih h1, h2]

theorem fgets_read_line {l : List Nat} (rest : List Nat) (h : 10 ∉ l) :
    ∀ room, l.length < room → fgets_read room (l ++ 10 :: rest) = (l ++ [10], rest) := by
  induction l with
  | nil =>
    intro room hr
    cases room with
    | zero => simp at hr
    | succ r => simp [fgets_read]
  | cons a l ih =>
    intro room hr
    have h1 : 10 ∉ l := fun m => h (List.mem_cons_of_mem _ m)
    have h2 : a ≠ 10 := fun e => h (e ▸ List.mem_cons_self _ _)
    cases room with
    | zero => simp at hr
    | succ r =>
      have hr1 : l.length < r := by simpa using hr
      simp [fgets_read, h2, ih h1 r hr1]

theorem fgets_line {l : List Nat} (rest : List Nat) (h : 10 ∉ l) (hlen : l.length + 1 ≤ 255) :
    fgets 256 (l ++ 10 :: rest) = some (l ++ [10], rest) := by
  have := fgets_read_line rest h 255 (by omega)
  cases l with
  | nil => simp [fgets, fgets_read]
  | cons a l => simpa [fgets] using this


theorem fgets_read_length (room : Nat) (fp : List Nat) :
    (fgets_read room fp).2.length ≤ fp.length := by
  induction fp generalizing room with
  | nil => cases room <;> simp [fgets_read]
  | cons c fp ih =>
    cases room with
    | zero => simp [fgets_read]
    | succ r =>
      by_cases hc : c = 10
      · simp [fgets_read, hc]
      · have := ih r
        simp [fgets_read, hc]
        omega

theorem fgets_consumes {size : Nat} {fp buf fp1 : List Nat} (hs : 2 ≤ size)
    (h : fgets size fp = some (buf, fp1)) : fp1.length < fp.length := by
  cases fp with
  | nil => simp [fgets] at h
  | cons c fp =>
    obtain ⟨r, hr⟩ : ∃ r, size - 1 = r + 1 := ⟨size - 2, by omega⟩
    simp only [fgets, hr, Option.some.injEq] at h
    by_cases hc : c = 10
    · simp [fgets_read, hc] at h
      simp [← h.2]
    · simp [fgets_read, hc] at h
      have := fgets_read_length r fp
      rw [h.2] at this
      simp
      omega

/-! ## The loop of `__read_mtp_conf` -/

/-- The fuel does not matter once it is at least the length of the stream. -/
theorem read_mtp_conf_loop_fuel (n m : Nat) (fp : List Nat) (g : mtp_config_t)
    (hn : fp.length ≤ n) (hm : fp.length ≤ m) :
    read_mtp_conf_loop n fp g = read_mtp_conf_loop m fp g := by
  induction n generalizing m fp g with
  | zero =>
    have : fp = [] := List.length_eq_zero.mp (by omega)
    subst this
    cases m <;> simp [read_mtp_conf_loop, fgets]
  | succ n ih =>
    cases m with
    | zero =>
      have : fp = [] := List.length_eq_zero.mp (by omega)
      subst this
      simp [read_mtp_conf_loop, fgets]
    | succ m =>
      simp only [read_mtp_conf_loop]
      cases hf : fgets 256 fp with
      | none => rfl
      | some p =>
        obtain ⟨buf, fp1⟩ := p
        have hlt := fgets_consumes (by decide) hf
        simp only []
        cases hl : read_mtp_conf_line buf g with
        | mk b g1 =>
          cases b with
          | true => simpa using ih m fp1 g1 (by omega) (by omega)
          | false => rfl

/-- One turn of the loop: the call of `fgets` that succeeds, followed by the
body, and the loop again on what is left of the stream. -/
theorem read_mtp_conf_loop_step {fp buf fp1 : List Nat} (g : mtp_config_t)
    (hf : fgets 256 fp = some (buf, fp1)) :
    read_mtp_conf_loop fp.length fp g =
      if (read_mtp_conf_line buf g).1 then
        read_mtp_conf_loop fp1.length fp1 (read_mtp_conf_line buf g).2
      else (read_mtp_conf_line buf g).2 := by
  have hlt := fgets_consumes (by decide) hf
  obtain ⟨n, hn⟩ : ∃ n, fp.length = n + 1 := ⟨fp.length - 1, by omega⟩
  rw [hn]
  simp only [read_mtp_conf_loop, hf]
  cases hl : read_mtp_conf_line buf g with
  | mk b g1 =>
    cases b with
    | true => simpa using read_mtp_conf_loop_fuel n fp1.length fp1 g1 (by omega) (le_refl _)
    | false => simp

theorem read_mtp_conf_loop_nil (n : Nat) (g : mtp_config_t) :
    read_mtp_conf_loop n [] g = g := by
  cases n <;> simp [read_mtp_conf_loop, fgets]

/-- The field `is_init` is set on every path of `__read_mtp_conf`. -/
theorem read_mtp_conf_is_init (d : mtp_defaults) (file : Option (List Nat))
    (g : mtp_config_t) : (__read_mtp_conf d file g).is_init = true := by
  cases file <;> rfl


/-! ## C1: no configuration file -/

/-- C1: when the configuration file cannot be opened, `__read_mtp_conf` leaves
the eleven tuning parameters at their `MTP_*` defaults whatever `g_conf` held
before, sets `is_init`, and, when `MTP_SUPPORT_PTHREAD_SCHED` is non-zero, leaves
the scheduling fields at their defaults too. -/
theorem read_mtp_conf_no_file (d : mtp_defaults) (g : mtp_config_t) :
    (__read_mtp_conf d none g).mmap_threshold = d.MTP_MMAP_THRESHOLD ∧
    (__read_mtp_conf d none g).read_usb_size = d.MTP_READ_USB_SIZE ∧
    (__read_mtp_conf d none g).write_usb_size = d.MTP_WRITE_USB_SIZE ∧
    (__read_mtp_conf d none g).read_file_size = d.MTP_READ_FILE_SIZE ∧
    (__read_mtp_conf d none g).write_file_size = d.MTP_WRITE_FILE_SIZE ∧
    (__read_mtp_conf d none g).init_rx_ipc_size = d.MTP_INIT_RX_IPC_SIZE ∧
    (__read_mtp_conf d none g).init_tx_ipc_size = d.MTP_INIT_TX_IPC_SIZE ∧
    (__read_mtp_conf d none g).max_rx_ipc_size = d.MTP_MAX_RX_IPC_SIZE ∧
    (__read_mtp_conf d none g).max_tx_ipc_size = d.MTP_MAX_TX_IPC_SIZE ∧
    (__read_mtp_conf d none g).max_io_buf_size = d.MTP_MAX_IO_BUF_SIZE ∧
    (__read_mtp_conf d none g).read_file_delay = d.MTP_READ_FILE_DELAY ∧
    (__read_mtp_conf d none g).is_init = true ∧
    (d.MTP_SUPPORT_PTHREAD_SCHED ≠ 0 →
      (__read_mtp_conf d none g).support_pthread_sched = true ∧
      (__read_mtp_conf d none g).inheritsched = d.MTP_INHERITSCHED ∧
      (__read_mtp_conf d none g).schedpolicy = d.MTP_SCHEDPOLICY ∧
      (__read_mtp_conf d none g).file_schedparam = d.MTP_FILE_SCHEDPARAM ∧
      (__read_mtp_conf d none g).usb_schedparam = d.MTP_USB_SCHEDPARAM) := by
  by_cases h : d.MTP_SUPPORT_PTHREAD_SCHED = 0
  · simp [__read_mtp_conf, read_mtp_conf_defaults, h]
  · simp [__read_mtp_conf, read_mtp_conf_defaults, h]

/-- The statement C1 at `defaults_example` and `conf_example`: scheduling support
is compiled in there, and the scheduling fields end at their defaults. -/
theorem read_mtp_conf_no_file_witness :
    defaults_example.MTP_SUPPORT_PTHREAD_SCHED ≠ 0 ∧
    (__read_mtp_conf defaults_example none conf_example).mmap_threshold = 524288 ∧
    (__read_mtp_conf defaults_example none conf_example).inheritsched = 105 ∧
    (__read_mtp_conf defaults_example none conf_example).is_init = true :=
  ⟨by decide,
   (read_mtp_conf_no_file defaults_example conf_example).1,
   ((read_mtp_conf_no_file defaults_example conf_example).2.2.2.2.2.2.2.2.2.2.2.2
      (by decide)).2.1,
   (read_mtp_conf_no_file defaults_example conf_example).2.2.2.2.2.2.2.2.2.2.2.1⟩


/-! ## Lemmas on one line -/

theorem tolower_eq_zero {c : Nat} : tolower c = 0 ↔ c = 0 := by
  unfold tolower
  split <;> omega

theorem strcasecmp_eq_zero_iff {a b : List Nat} (ha : 0 ∉ a) (hb : 0 ∉ b) :
    strcasecmp a b = 0 ↔ eq_ignore_case a b := by
  unfold eq_ignore_case
  induction a generalizing b with
  | nil =>
    cases b with
    | nil => simp [strcasecmp]
    | cons y b =>
      have hy : y ≠ 0 := fun e => hb (e ▸ List.mem_cons_self _ _)
      have : tolower y ≠ 0 := fun e => hy (tolower_eq_zero.mp e)
      simp [strcasecmp]
      omega
  | cons x a ih =>
    have hx : x ≠ 0 := fun e => ha (e ▸ List.mem_cons_self _ _)
    have ha1 : 0 ∉ a := fun m => ha (List.mem_cons_of_mem _ m)
    cases b with
    | nil =>
      have : tolower x ≠ 0 := fun e => hx (tolower_eq_zero.mp e)
      simp [strcasecmp]
      omega
    | cons y b =>
      have hb1 : 0 ∉ b := fun m => hb (List.mem_cons_of_mem _ m)
      by_cases hxy : tolower x = tolower y
      · simp [strcasecmp, hxy, ih ha1 hb1]
      · simp [strcasecmp, hxy]
        omega

theorem find_cons_ite {α : Type} (P : α → Prop) [DecidablePred P] (a : α) (l : List α) :
    (a :: l).find? (fun o => decide (P o)) =
      if P a then some a else l.find? (fun o => decide (P o)) := by
  by_cases h : P a <;> simp [List.find?_cons, h]

theorem conf_lookup_eq_find (token : List Nat) :
    conf_lookup token = conf_options.find? (fun o => decide (strcasecmp token o.name = 0)) := by
  unfold conf_lookup conf_options
  simp only [find_cons_ite (fun o => strcasecmp token (conf_option.name o) = 0), List.find?_nil]
  rfl

theorem conf_option_name_no_nul (o : conf_option) : 0 ∉ o.name := by
  cases o <;> decide

theorem conf_lookup_eq_option_of_key {token : List Nat} (h0 : 0 ∉ token) :
    conf_lookup token = option_of_key token := by
  rw [conf_lookup_eq_find]
  unfold option_of_key
  congr 1
  funext o
  simp only [strcasecmp_eq_zero_iff h0 (conf_option_name_no_nul o)]


theorem read_mtp_conf_line_eq (buf : List Nat) (g : mtp_config_t) :
    read_mtp_conf_line buf g =
      if buf.head? = some 35 ∨ buf.head? = some 10 then (true, g)
      else
        match strrchr (c_str buf) 10 with
        | none => (false, g)
        | some i =>
          match strtok_r ((c_str buf).take i) [61] with
          | (none, _) => (true, g)
          | (some token, saveptr) =>
            match conf_lookup token with
            | none => (true, g)
            | some o =>
              match (strtok_r saveptr [61]).1 with
              | none => (true, g)
              | some value => (true, o.assign value g) := by
  unfold read_mtp_conf_line
  by_cases hh : buf.head? = some 35 ∨ buf.head? = some 10
  · rw [if_pos hh, if_pos hh]
  · rw [if_neg hh, if_neg hh]
    cases strrchr (c_str buf) 10 with
    | none => rfl
    | some i =>
      simp only []
      cases strtok_r ((c_str buf).take i) [61] with
      | mk t sp =>
        cases t with
        | none => rfl
        | some token =>
          simp only []
          unfold conf_lookup
          by_cases h1 : strcasecmp token str_mmap_threshold = 0
          · rw [if_pos h1, if_pos h1]; rfl
          · rw [if_neg h1, if_neg h1]
            by_cases h2 : strcasecmp token str_init_rx_ipc_size = 0
            · rw [if_pos h2, if_pos h2]; rfl
            · rw [if_neg h2, if_neg h2]
              by_cases h3 : strcasecmp token str_init_tx_ipc_size = 0
              · rw [if_pos h3, if_pos h3]; rfl
              · rw [if_neg h3, if_neg h3]
                by_cases h4 : strcasecmp token str_max_rx_ipc_size = 0
                · rw [if_pos h4, if_pos h4]; rfl
                · rw [if_neg h4, if_neg h4]
                  by_cases h5 : strcasecmp token str_max_tx_ipc_size = 0
                  · rw [if_pos h5, if_pos h5]; rfl
                  · rw [if_neg h5, if_neg h5]
                    by_cases h6 : strcasecmp token str_read_usb_size = 0
                    · rw [if_pos h6, if_pos h6]; rfl
                    · rw [if_neg h6, if_neg h6]
                      by_cases h7 : strcasecmp token str_write_usb_size = 0
                      · rw [if_pos h7, if_pos h7]; rfl
                      · rw [if_neg h7, if_neg h7]
                        by_cases h8 : strcasecmp token str_read_file_size = 0
                        · rw [if_pos h8, if_pos h8]; rfl
                        · rw [if_neg h8, if_neg h8]
                          by_cases h9 : strcasecmp token str_write_file_size = 0
                          · rw [if_pos h9, if_pos h9]; rfl
                          · rw [if_neg h9, if_neg h9]
                            by_cases h10 : strcasecmp token str_max_io_buf_size = 0
                            · rw [if_pos h10, if_pos h10]; rfl
                            · rw [if_neg h10, if_neg h10]
                              by_cases h11 : strcasecmp token str_read_file_delay = 0
                              · rw [if_pos h11, if_pos h11]; rfl
                              · rw [if_neg h11, if_neg h11]
                                by_cases h12 : strcasecmp token str_support_pthread_sched = 0
                                · rw [if_pos h12, if_pos h12]; rfl
                                · rw [if_neg h12, if_neg h12]
                                  by_cases h13 : strcasecmp token str_inheritsched = 0
                                  · rw [if_pos h13, if_pos h13]; rfl
                                  · rw [if_neg h13, if_neg h13]
                                    by_cases h14 : strcasecmp token str_schedpolicy = 0
                                    · rw [if_pos h14, if_pos h14]; rfl
                                    · rw [if_neg h14, if_neg h14]
                                      by_cases h15 : strcasecmp token str_file_schedparam = 0
                                      · rw [if_pos h15, if_pos h15]; rfl
                                      · rw [if_neg h15, if_neg h15]
                                        by_cases h16 : strcasecmp token str_usb_schedparam = 0
                                        · rw [if_pos h16, if_pos h16]; rfl
                                        · rw [if_neg h16, if_neg h16]

theorem strtok_r_eq (s : List Nat) :
    strtok_r s [61] =
      (if first_token s = [] then none else some (first_token s), (after_first_token s).tail) := by
  unfold strtok_r first_token after_first_token
  have e1 : (fun c : Nat => decide (c ∈ [61])) = (fun c => c == 61) := by
    funext c; by_cases h : c = 61 <;> simp [h]
  have e2 : (fun x : Nat => !decide (x ∈ [61])) = (fun c => c != 61) := by
    funext c; by_cases h : c = 61 <;> simp [h]
  rw [e1, e2]
  cases h : s.dropWhile (fun c => c == 61) with
  | nil => simp
  | cons c cs =>
    have hc : ¬ ((c == 61) = true) := by
      have := List.head_dropWhile_not (fun c : Nat => c == 61) s
      simp [h] at this
      simpa using this
    have hc1 : c ≠ 61 := by simpa using hc
    simp only []
    cases h2 : (c :: cs).dropWhile (fun c => c != 61) with
    | nil => simp [List.takeWhile_cons, hc1]
    | cons d ds => simp [List.takeWhile_cons, hc1]

theorem first_token_subset (l : List Nat) : first_token l ⊆ l := by
  unfold first_token
  exact (List.takeWhile_sublist _).subset.trans (List.dropWhile_sublist _).subset

theorem after_first_token_subset (l : List Nat) : after_first_token l ⊆ l := by
  unfold after_first_token
  exact (List.dropWhile_sublist _).subset.trans (List.dropWhile_sublist _).subset

theorem first_token_tail_after (l : List Nat) :
    first_token (after_first_token l).tail = second_token l := by
  unfold second_token
  cases h : after_first_token l with
  | nil => rfl
  | cons d ds =>
    have hd : d = 61 := by
      have := List.head_dropWhile_not (fun c : Nat => c != 61)
        (l.dropWhile (fun c => c == 61))
      unfold after_first_token at h
      simp [h] at this
      simpa using this
    subst hd
    simp [first_token]

theorem option_of_key_nil : option_of_key [] = none := by
  decide

theorem read_mtp_conf_line_text {l : List Nat} (h0 : 0 ∉ l) (h10 : 10 ∉ l)
    (g : mtp_config_t) :
    read_mtp_conf_line (l ++ [10]) g = (true, conf_line_effect l g) := by
  rw [read_mtp_conf_line_eq]
  cases l with
  | nil => simp [conf_line_effect, first_token, option_of_key_nil]
  | cons a l =>
    by_cases ha : a = 35
    · simp [ha, conf_line_effect]
    · have ha10 : a ≠ 10 := fun e => h10 (e ▸ List.mem_cons_self _ _)
      have hc : c_str (a :: l ++ [10]) = a :: l ++ [10] := by
        apply c_str_eq_self
        intro hm
        rcases List.mem_append.mp hm with hm | hm
        · exact h0 hm
        · simp at hm
      have hhead : ¬ ((a :: l ++ [10]).head? = some 35 ∨ (a :: l ++ [10]).head? = some 10) := by
        simp [ha, ha10]
      have htake : (a :: l ++ [10]).take (a :: l).length = a :: l := by
        simp
      rw [if_neg hhead, hc, strrchr_append_newline h10]
      simp only [htake, strtok_r_eq, first_token_tail_after]
      have heff : conf_line_effect (a :: l) g =
          match option_of_key (first_token (a :: l)) with
          | none => g
          | some o =>
            if second_token (a :: l) = [] then g else o.assign (second_token (a :: l)) g := by
        unfold conf_line_effect
        exact if_neg (by simp [ha])
      rw [heff]
      by_cases hk : first_token (a :: l) = []
      · simp [hk, option_of_key_nil]
      · have hk0 : 0 ∉ first_token (a :: l) := fun m => h0 (first_token_subset _ m)
        simp only [hk, if_false]
        rw [conf_lookup_eq_option_of_key hk0]
        cases option_of_key (first_token (a :: l)) with
        | none => rfl
        | some o =>
          by_cases hv : second_token (a :: l) = []
          · simp [hv, first_token_tail_after]
          · simp [hv, first_token_tail_after]

/-! ## C2: lines whose key names no option -/

/-- C2 as stated fails. The line `=mmap_threshold=5` is newline-terminated and
short, and the text before its first `=` is empty, hence no option name; yet
processing it sets `mmap_threshold` to 5, because `strtok_r` skips the `=` a line
starts with. The line `fo\0o=1` names no option either, and processing it ends
the loop, because the string `strrchr` searches ends at the NUL byte. -/
theorem unknown_key_line_counterexample :
    (10 ∉ line_leading_eq ∧ line_leading_eq.length + 1 ≤ 255 ∧
      (∀ n ∈ conf_option_names, ¬ eq_ignore_case (text_before_first_eq line_leading_eq) n) ∧
      read_mtp_conf_line (line_leading_eq ++ [10]) conf_example =
        (true, { conf_example with mmap_threshold := 5 }) ∧
      conf_example.mmap_threshold ≠ 5) ∧
    (10 ∉ line_with_nul ∧ line_with_nul.length + 1 ≤ 255 ∧
      (∀ n ∈ conf_option_names, ¬ eq_ignore_case (text_before_first_eq line_with_nul) n) ∧
      read_mtp_conf_line (line_with_nul ++ [10]) conf_example = (false, conf_example)) := by
  decide

/-- A key that equals no option name selects no option. -/
theorem option_of_key_none {k : List Nat}
    (h : ∀ n ∈ conf_option_names, ¬ eq_ignore_case k n) : option_of_key k = none := by
  unfold option_of_key
  rw [List.find?_eq_none]
  intro o _
  have ho : o.name ∈ conf_option_names := by
    cases o <;> simp [conf_option.name, conf_option_names]
  simpa using h _ ho

/-- The loop on a stream that starts with a line of text of at most 255 bytes:
the line is read whole, has its specified effect, and the loop goes on. -/
theorem read_mtp_conf_loop_text_line {l : List Nat} (rest : List Nat) (g : mtp_config_t)
    (h0 : 0 ∉ l) (h10 : 10 ∉ l) (hlen : l.length + 1 ≤ 255) :
    read_mtp_conf_loop (l ++ 10 :: rest).length (l ++ 10 :: rest) g =
      read_mtp_conf_loop rest.length rest (conf_line_effect l g) := by
  rw [read_mtp_conf_loop_step g (fgets_line rest h10 hlen), read_mtp_conf_line_text h0 h10]
  simp

/-- C2, amended: for every newline-terminated line of at most 255 bytes
(newline included) that holds no NUL byte and whose key, taken as its first
`=`-separated token (the `=` characters the line starts with are skipped), equals
no recognised option name ignoring ASCII case, processing the line leaves every
field of `g_conf` unchanged and the loop goes on with what follows the line. -/
theorem unknown_key_line (line rest : List Nat) (g : mtp_config_t)
    (h0 : 0 ∉ line) (h10 : 10 ∉ line) (hlen : line.length + 1 ≤ 255)
    (hkey : ∀ n ∈ conf_option_names, ¬ eq_ignore_case (first_token line) n) :
    read_mtp_conf_line (line ++ [10]) g = (true, g) ∧
    read_mtp_conf_loop (line ++ 10 :: rest).length (line ++ 10 :: rest) g =
      read_mtp_conf_loop rest.length rest g := by
  have he : conf_line_effect line g = g := by
    unfold conf_line_effect
    rw [option_of_key_none hkey]
    simp
  constructor
  · rw [read_mtp_conf_line_text h0 h10, he]
  · rw [read_mtp_conf_loop_text_line rest g h0 h10 hlen, he]


/-- The amended C2 at the line `foo=1` followed by the line `mmap_threshold=5`. -/
theorem unknown_key_line_witness :
    (0 ∉ line_unknown ∧ 10 ∉ line_unknown ∧ line_unknown.length + 1 ≤ 255 ∧
      ∀ n ∈ conf_option_names, ¬ eq_ignore_case (first_token line_unknown) n) ∧
    read_mtp_conf_line (line_unknown ++ [10]) conf_example = (true, conf_example) ∧
    read_mtp_conf_loop (line_unknown ++ 10 :: file_one_line).length
        (line_unknown ++ 10 :: file_one_line) conf_example =
      read_mtp_conf_loop file_one_line.length file_one_line conf_example :=
  ⟨by decide, unknown_key_line line_unknown file_one_line conf_example
    (by decide) (by decide) (by decide) (by decide)⟩
/-! ## C3: lines whose key names an option -/


theorem strtol_digits_append_eq (a r : List Nat) (acc : Nat) :
    strtol_digits (a ++ 61 :: r) acc = strtol_digits a acc := by
  induction a generalizing acc with
  | nil => simp [strtol_digits, isdigit]
  | cons x a ih =>
    by_cases hx : isdigit x = true
    · simp [strtol_digits, hx, ih]
    · simp [strtol_digits, hx]

theorem strtol_append_eq (a r : List Nat) : strtol (a ++ 61 :: r) = strtol a := by
  unfold strtol
  induction a with
  | nil => simp [List.dropWhile, isspace, strtol_digits, isdigit]
  | cons x a ih =>
    by_cases hx : isspace x = true
    · simpa [List.dropWhile, hx] using ih
    · have e1 : List.dropWhile isspace (x :: a ++ 61 :: r) = x :: (a ++ 61 :: r) := by
        simp [List.dropWhile, hx]
      have e2 : List.dropWhile isspace (x :: a) = x :: a := by
        simp [List.dropWhile, hx]
      rw [e1, e2]
      by_cases h45 : x = 45
      · subst h45; simp [strtol_digits_append_eq]
      · by_cases h43 : x = 43
        · subst h43; simp [strtol_digits_append_eq]
        · have := strtol_digits_append_eq (x :: a) r 0
          simp only [List.cons_append] at this
          split <;> simp_all

theorem takeWhile_append_dropWhile_eq (v : List Nat) :
    v.takeWhile (fun c => c != 61) = v ∨
    ∃ r, v = v.takeWhile (fun c => c != 61) ++ 61 :: r := by
  cases h : v.dropWhile (fun c => c != 61) with
  | nil =>
    left
    have := List.takeWhile_append_dropWhile (fun c => c != 61) v
    rw [h] at this
    simpa using this
  | cons d ds =>
    right
    have hd : d = 61 := by
      have := List.head_dropWhile_not (fun c : Nat => c != 61) v
      simp [h] at this
      simpa using this
    refine ⟨ds, ?_⟩
    have := List.takeWhile_append_dropWhile (fun c => c != 61) v
    rw [h, hd] at this
    exact this.symm

theorem atoi_takeWhile (v : List Nat) : atoi (v.takeWhile (fun c => c != 61)) = atoi v := by
  unfold atoi
  rcases takeWhile_append_dropWhile_eq v with h | ⟨r, h⟩
  · rw [h]
  · conv_rhs => rw [h]
    rw [strtol_append_eq]

theorem find_unique {α : Type} (p : α → Bool) (l : List α) (a : α) (ha : a ∈ l)
    (hp : p a = true) (hu : ∀ x ∈ l, p x = true → x = a) : l.find? p = some a := by
  induction l with
  | nil => simp at ha
  | cons x l ih =>
    by_cases hx : p x = true
    · have := hu x (List.mem_cons_self _ _) hx
      subst this
      simp [List.find?_cons, hx]
    · have hxa : a ≠ x := fun e => hx (e ▸ hp)
      have ha1 : a ∈ l := by
        rcases List.mem_cons.mp ha with h | h
        · exact absurd h hxa
        · exact h
      simp only [List.find?_cons]
      simp only [Bool.not_eq_true] at hx
      rw [hx]
      exact ih ha1 (fun y hy => hu y (List.mem_cons_of_mem _ hy))

theorem conf_option_name_inj (o o1 : conf_option) (h : eq_ignore_case o.name o1.name) :
    o = o1 := by
  cases o <;> cases o1 <;> first | rfl | exact absurd h (by decide)

theorem mem_conf_options (o : conf_option) : o ∈ conf_options := by
  cases o <;> simp [conf_options]

theorem option_of_key_eq {key : List Nat} {o : conf_option} (h : eq_ignore_case key o.name) :
    option_of_key key = some o := by
  unfold option_of_key
  apply find_unique _ _ _ (mem_conf_options o)
  · simpa using h
  · intro x _ hx
    have hx1 : eq_ignore_case key x.name := by simpa using hx
    apply conf_option_name_inj
    unfold eq_ignore_case at *
    rw [← hx1, h]

theorem conf_option_name_ge (o : conf_option) : ∀ y ∈ o.name, 95 ≤ y := by
  cases o <;> decide

theorem tolower_ge (c : Nat) : c ≤ tolower c := by
  unfold tolower
  split <;> omega

theorem key_no_special {key : List Nat} {o : conf_option} (h : eq_ignore_case key o.name)
    (s : Nat) (hs : s < 65) : s ∉ key := by
  intro hm
  have h1 : tolower s ∈ key.map tolower := List.mem_map_of_mem _ hm
  unfold eq_ignore_case at h
  rw [h] at h1
  obtain ⟨y, hy, hys⟩ := List.mem_map.mp h1
  have h2 := conf_option_name_ge o y hy
  have h3 := tolower_ge y
  have h4 : tolower s = s := by
    unfold tolower
    rw [if_neg (by omega)]
  omega

theorem key_ne_nil {key : List Nat} {o : conf_option} (h : eq_ignore_case key o.name) :
    key ≠ [] := by
  intro e
  subst e
  unfold eq_ignore_case at h
  cases o <;> simp [conf_option.name] at h <;> exact absurd h (by decide)

theorem span_key {key : List Nat} (v : List Nat) (h : 61 ∉ key) :
    (key ++ 61 :: v).takeWhile (fun c => c != 61) = key ∧
    (key ++ 61 :: v).dropWhile (fun c => c != 61) = 61 :: v := by
  induction key with
  | nil => simp
  | cons x key ih =>
    have hx : x ≠ 61 := fun e => h (e ▸ List.mem_cons_self _ _)
    have h1 : 61 ∉ key := fun m => h (List.mem_cons_of_mem _ m)
    simp [List.takeWhile_cons, List.dropWhile_cons, hx, ih h1]

theorem first_token_key {key : List Nat} (v : List Nat) (h : 61 ∉ key) (hne : key ≠ []) :
    first_token (key ++ 61 :: v) = key ∧ after_first_token (key ++ 61 :: v) = 61 :: v := by
  have hd : (key ++ 61 :: v).dropWhile (fun c => c == 61) = key ++ 61 :: v := by
    cases key with
    | nil => exact absurd rfl hne
    | cons x key =>
      have hx : x ≠ 61 := fun e => h (e ▸ List.mem_cons_self _ _)
      simp [List.dropWhile_cons, hx]
  unfold first_token after_first_token
  rw [hd]
  exact span_key v h

theorem first_token_value {v : List Nat} (hv : v ≠ []) (h61 : v.head? ≠ some 61) :
    first_token (61 :: v) = v.takeWhile (fun c => c != 61) ∧
    v.takeWhile (fun c => c != 61) ≠ [] ∧
    (v.takeWhile (fun c => c != 61)).headD 0 = v.headD 0 := by
  cases v with
  | nil => exact absurd rfl hv
  | cons x v =>
    have hx : x ≠ 61 := by simpa using h61
    simp [first_token, List.dropWhile_cons, List.takeWhile_cons, hx]

theorem assign_takeWhile (o : conf_option) {v : List Nat} (g : mtp_config_t)
    (h : (v.takeWhile (fun c => c != 61)).headD 0 = v.headD 0) :
    o.assign (v.takeWhile (fun c => c != 61)) g = o.assign v g := by
  cases o <;> simp only [conf_option.assign, atoi_takeWhile, h]

/-- C3, amended: for every newline-terminated line `key=value` of at most 255
bytes (newline included) whose key equals, ignoring ASCII case, the name of one
of the 16 options and whose value is non-empty, holds no NUL byte and does not
start with `=`, processing the line sets exactly the field of that name, to
`atoi(value)` for the 13 integer options, to `atoi(value) != 0` for
`support_pthread_sched` and to the first character of the value for
`inheritsched` and `schedpolicy`; no other field changes, and the loop goes on
with what follows the line. -/
theorem known_key_line (o : conf_option) (key value rest : List Nat) (g : mtp_config_t)
    (hkey : eq_ignore_case key o.name) (hv : value ≠ []) (h61 : value.head? ≠ some 61)
    (h0 : 0 ∉ value) (h10 : 10 ∉ value)
    (hlen : (key ++ 61 :: value).length + 1 ≤ 255) :
    read_mtp_conf_line (key ++ 61 :: value ++ [10]) g = (true, o.assign value g) ∧
    read_mtp_conf_loop (key ++ 61 :: value ++ 10 :: rest).length
        (key ++ 61 :: value ++ 10 :: rest) g =
      read_mtp_conf_loop rest.length rest (o.assign value g) := by
  have hk61 := key_no_special hkey 61 (by decide)
  have hk0 := key_no_special hkey 0 (by decide)
  have hk10 := key_no_special hkey 10 (by decide)
  have hk35 := key_no_special hkey 35 (by decide)
  have hkne := key_ne_nil hkey
  have hl0 : 0 ∉ key ++ 61 :: value := by
    simp only [List.mem_append, List.mem_cons]
    rintro (h | h | h)
    · exact hk0 h
    · exact absurd h (by decide)
    · exact h0 h
  have hl10 : 10 ∉ key ++ 61 :: value := by
    simp only [List.mem_append, List.mem_cons]
    rintro (h | h | h)
    · exact hk10 h
    · exact absurd h (by decide)
    · exact h10 h
  obtain ⟨t1, t2⟩ := first_token_key value hk61 hkne
  obtain ⟨v1, v2, v3⟩ := first_token_value hv h61
  have hhead : (key ++ 61 :: value).head? ≠ some 35 := by
    cases key with
    | nil => exact absurd rfl hkne
    | cons x key =>
      have hx : x ≠ 35 := fun e => hk35 (e ▸ List.mem_cons_self _ _)
      simpa using hx
  have he : conf_line_effect (key ++ 61 :: value) g = o.assign value g := by
    unfold conf_line_effect second_token
    rw [if_neg hhead, t1, t2, v1, option_of_key_eq hkey]
    simp only [v2, if_false]
    exact assign_takeWhile o g v3
  constructor
  · rw [read_mtp_conf_line_text hl0 hl10, he]
  · rw [read_mtp_conf_loop_text_line rest g hl0 hl10 hlen, he]

/-- C3 as stated fails, on three lines `mmap_threshold=value` with a non-empty
value. With a value of 251 characters the line is longer than the 255 bytes
`fgets` reads at once: the loop ends and `mmap_threshold` keeps its value, when
`atoi(value)` is 5. With the value `5\0` the loop ends too. With the value `=5`
the field is set to 5, when `atoi(value)` is 0. -/
theorem known_key_line_counterexample :
    (eq_ignore_case str_mmap_threshold conf_option.mmap_threshold.name ∧ value_long ≠ [] ∧
      10 ∉ str_mmap_threshold ++ 61 :: value_long ∧
      read_mtp_conf_loop (str_mmap_threshold ++ 61 :: value_long ++ [10]).length
        (str_mmap_threshold ++ 61 :: value_long ++ [10]) conf_example = conf_example ∧
      (conf_option.mmap_threshold.assign value_long conf_example).mmap_threshold = 5 ∧
      conf_example.mmap_threshold = 1) ∧
    (value_with_nul ≠ [] ∧ 10 ∉ str_mmap_threshold ++ 61 :: value_with_nul ∧
      read_mtp_conf_line (str_mmap_threshold ++ 61 :: value_with_nul ++ [10]) conf_example =
        (false, conf_example) ∧
      (conf_option.mmap_threshold.assign value_with_nul conf_example).mmap_threshold = 5) ∧
    (value_leading_eq ≠ [] ∧ 10 ∉ str_mmap_threshold ++ 61 :: value_leading_eq ∧
      read_mtp_conf_line (str_mmap_threshold ++ 61 :: value_leading_eq ++ [10]) conf_example =
        (true, { conf_example with mmap_threshold := 5 }) ∧
      (conf_option.mmap_threshold.assign value_leading_eq conf_example).mmap_threshold = 0) := by
  decide

/-- The amended C3 at the line `Max_IO_Buf_Size=4096`, followed by the line
`mmap_threshold=5`. -/
theorem known_key_line_witness :
    (eq_ignore_case key_mixed_case conf_option.max_io_buf_size.name ∧ value_4096 ≠ [] ∧
      value_4096.head? ≠ some 61 ∧ 0 ∉ value_4096 ∧ 10 ∉ value_4096 ∧
      (key_mixed_case ++ 61 :: value_4096).length + 1 ≤ 255) ∧
    read_mtp_conf_line (key_mixed_case ++ 61 :: value_4096 ++ [10]) conf_example =
      (true, conf_option.max_io_buf_size.assign value_4096 conf_example) ∧
    read_mtp_conf_loop (key_mixed_case ++ 61 :: value_4096 ++ 10 :: file_one_line).length
        (key_mixed_case ++ 61 :: value_4096 ++ 10 :: file_one_line) conf_example =
      read_mtp_conf_loop file_one_line.length file_one_line
        (conf_option.max_io_buf_size.assign value_4096 conf_example) :=
  ⟨by decide, known_key_line conf_option.max_io_buf_size key_mixed_case value_4096
    file_one_line conf_example (by decide) (by decide) (by decide) (by decide) (by decide)
    (by decide)⟩
/-! ## C4: the whole file -/


theorem option_of_key_some {key : List Nat} {o : conf_option}
    (h : option_of_key key = some o) : eq_ignore_case key o.name := by
  unfold option_of_key at h
  have := List.find?_some h
  simpa using this

theorem get_int_assign_self (o : conf_option) (v : List Nat) (g : mtp_config_t)
    (hi : o.is_int = true) : o.get_int (o.assign v g) = atoi v := by
  cases o <;> first | rfl | exact absurd hi (by decide)

theorem get_int_assign_other (o o1 : conf_option) (v : List Nat) (g : mtp_config_t)
    (hne : o1 ≠ o) : o.get_int (o1.assign v g) = o.get_int g := by
  cases o <;> cases o1 <;> first | rfl | exact absurd rfl hne

/-- The effect of one line on one integer field. -/
theorem get_int_conf_line_effect (o : conf_option) (hi : o.is_int = true) (l : List Nat)
    (g : mtp_config_t) :
    o.get_int (conf_line_effect l g) =
      match line_value o.name l with
      | some v => atoi v
      | none => o.get_int g := by
  unfold conf_line_effect line_value
  by_cases hc : l.head? = some 35
  · simp [hc]
  · rw [if_neg hc, if_neg hc]
    cases hk : option_of_key (first_token l) with
    | none =>
      have hno : ¬ eq_ignore_case (first_token l) o.name := by
        intro h
        rw [option_of_key_eq h] at hk
        exact absurd hk (by simp)
      simp [hno]
    | some o1 =>
      have h1 := option_of_key_some hk
      by_cases ho : o1 = o
      · subst ho
        by_cases hv : second_token l = []
        · simp [hv]
        · simp [hv, h1, get_int_assign_self o1 _ g hi]
      · have hno : ¬ eq_ignore_case (first_token l) o.name := by
          intro h
          rw [option_of_key_eq h] at hk
          exact ho (Option.some.inj hk).symm
        by_cases hv : second_token l = []
        · simp [hv]
        · simp [hv, hno, get_int_assign_other o o1 _ g ho]

theorem getLast?_cons_eq {α : Type} (a : α) (xs : List α) :
    (a :: xs).getLast? = match xs.getLast? with
      | some v => some v
      | none => some a := by
  cases xs with
  | nil => rfl
  | cons b xs =>
    rw [List.getLast?_cons_cons]
    cases h : (b :: xs).getLast? with
    | none => simp at h
    | some v => rfl

theorem last_value_cons (name l : List Nat) (ls : List (List Nat)) :
    last_value name (l :: ls) = match last_value name ls with
      | some v => some v
      | none => line_value name l := by
  unfold last_value
  cases hl : line_value name l with
  | none =>
    rw [List.filterMap_cons_none hl]
    cases (List.filterMap (line_value name) ls).getLast? <;> rfl
  | some v =>
    rw [List.filterMap_cons_some hl, getLast?_cons_eq]
    cases (List.filterMap (line_value name) ls).getLast? <;> rfl

/-- The effect of a sequence of lines on one integer field. -/
theorem get_int_foldl (o : conf_option) (hi : o.is_int = true) (lines : List (List Nat))
    (g : mtp_config_t) :
    o.get_int (lines.foldl (fun g l => conf_line_effect l g) g) =
      conf_value o.name (o.get_int g) lines := by
  induction lines generalizing g with
  | nil => rfl
  | cons l ls ih =>
    rw [List.foldl_cons, ih, get_int_conf_line_effect o hi]
    unfold conf_value
    rw [last_value_cons]
    cases last_value o.name ls with
    | some v => rfl
    | none => rfl

/-- The loop on a file of lines of text of at most 255 bytes each applies the
specified effect of each line in turn. -/
theorem read_mtp_conf_loop_unlines (lines : List (List Nat)) (g : mtp_config_t)
    (h : ∀ l ∈ lines, 0 ∉ l ∧ 10 ∉ l ∧ l.length + 1 ≤ 255) :
    read_mtp_conf_loop (unlines lines).length (unlines lines) g =
      lines.foldl (fun g l => conf_line_effect l g) g := by
  induction lines generalizing g with
  | nil => simp [unlines, read_mtp_conf_loop_nil]
  | cons l ls ih =>
    obtain ⟨h0, h10, hlen⟩ := h l (List.mem_cons_self _ _)
    simp only [unlines, List.foldl_cons]
    rw [read_mtp_conf_loop_text_line _ g h0 h10 hlen]
    exact ih _ (fun x hx => h x (List.mem_cons_of_mem _ hx))

theorem conf_line_effect_blank {l : List Nat} (h : is_blank_or_comment l = true)
    (g : mtp_config_t) : conf_line_effect l g = g := by
  unfold is_blank_or_comment at h
  unfold conf_line_effect
  cases l with
  | nil => simp [first_token, option_of_key_nil]
  | cons a l =>
    have : a = 35 := by simpa using h
    simp [this]

theorem foldl_filter_blank (lines : List (List Nat)) (g : mtp_config_t) :
    (lines.filter (fun l => !is_blank_or_comment l)).foldl (fun g l => conf_line_effect l g) g =
      lines.foldl (fun g l => conf_line_effect l g) g := by
  induction lines generalizing g with
  | nil => rfl
  | cons l ls ih =>
    by_cases hb : is_blank_or_comment l = true
    · simp [List.filter_cons, hb, conf_line_effect_blank hb, ih]
    · simp [List.filter_cons, hb, ih]

theorem get_int_read_mtp_conf (d : mtp_defaults) (g : mtp_config_t) (lines : List (List Nat))
    (h : ∀ l ∈ lines, 0 ∉ l ∧ 10 ∉ l ∧ l.length + 1 ≤ 255) (o : conf_option)
    (hi : o.is_int = true) :
    o.get_int (__read_mtp_conf d (some (unlines lines)) g) =
      conf_value o.name (o.get_int (read_mtp_conf_defaults d g)) lines := by
  have e : o.get_int (__read_mtp_conf d (some (unlines lines)) g) =
      o.get_int (read_mtp_conf_loop (unlines lines).length (unlines lines)
        (read_mtp_conf_defaults d g)) := by
    cases o <;> rfl
  rw [e, read_mtp_conf_loop_unlines lines _ h, get_int_foldl o hi]

theorem read_mtp_conf_defaults_eq (d : mtp_defaults) (g : mtp_config_t) :
    read_mtp_conf_defaults d g =
      { is_init := g.is_init
        mmap_threshold := d.MTP_MMAP_THRESHOLD
        init_rx_ipc_size := d.MTP_INIT_RX_IPC_SIZE
        init_tx_ipc_size := d.MTP_INIT_TX_IPC_SIZE
        max_rx_ipc_size := d.MTP_MAX_RX_IPC_SIZE
        max_tx_ipc_size := d.MTP_MAX_TX_IPC_SIZE
        read_usb_size := d.MTP_READ_USB_SIZE
        write_usb_size := d.MTP_WRITE_USB_SIZE
        read_file_size := d.MTP_READ_FILE_SIZE
        write_file_size := d.MTP_WRITE_FILE_SIZE
        max_io_buf_size := d.MTP_MAX_IO_BUF_SIZE
        read_file_delay := d.MTP_READ_FILE_DELAY
        support_pthread_sched :=
          if d.MTP_SUPPORT_PTHREAD_SCHED ≠ 0 then true else g.support_pthread_sched
        inheritsched :=
          if d.MTP_SUPPORT_PTHREAD_SCHED ≠ 0 then d.MTP_INHERITSCHED else g.inheritsched
        schedpolicy :=
          if d.MTP_SUPPORT_PTHREAD_SCHED ≠ 0 then d.MTP_SCHEDPOLICY else g.schedpolicy
        file_schedparam :=
          if d.MTP_SUPPORT_PTHREAD_SCHED ≠ 0 then d.MTP_FILE_SCHEDPARAM else g.file_schedparam
        usb_schedparam :=
          if d.MTP_SUPPORT_PTHREAD_SCHED ≠ 0 then d.MTP_USB_SCHEDPARAM
          else g.usb_schedparam } := by
  by_cases h : d.MTP_SUPPORT_PTHREAD_SCHED = 0
  · simp [read_mtp_conf_defaults, h]
  · simp [read_mtp_conf_defaults, h]

/-- C4, amended: for every configuration file in which each line ends with a
newline, is at most 255 bytes long including it and holds no NUL byte, after
`__read_mtp_conf` each integer tuning parameter equals `atoi` of the value on the
last `key=value` line that names it (key and value being the first and second
`=`-separated tokens of the line), and when no line names it equals its built-in
default; for `file_schedparam` and `usb_schedparam` that default is assigned only
when `MTP_SUPPORT_PTHREAD_SCHED` is non-zero, and they otherwise keep the value
`g_conf` held before the call. Lines that begin with `#` and empty lines
contribute nothing, and `is_init` is true. -/
theorem read_mtp_conf_file (d : mtp_defaults) (g : mtp_config_t) (lines : List (List Nat))
    (h : ∀ l ∈ lines, 0 ∉ l ∧ 10 ∉ l ∧ l.length + 1 ≤ 255) :
    (__read_mtp_conf d (some (unlines lines)) g).is_init = true ∧
    (__read_mtp_conf d (some (unlines lines)) g).mmap_threshold =
      conf_value str_mmap_threshold d.MTP_MMAP_THRESHOLD lines ∧
    (__read_mtp_conf d (some (unlines lines)) g).init_rx_ipc_size =
      conf_value str_init_rx_ipc_size d.MTP_INIT_RX_IPC_SIZE lines ∧
    (__read_mtp_conf d (some (unlines lines)) g).init_tx_ipc_size =
      conf_value str_init_tx_ipc_size d.MTP_INIT_TX_IPC_SIZE lines ∧
    (__read_mtp_conf d (some (unlines lines)) g).max_rx_ipc_size =
      conf_value str_max_rx_ipc_size d.MTP_MAX_RX_IPC_SIZE lines ∧
    (__read_mtp_conf d (some (unlines lines)) g).max_tx_ipc_size =
      conf_value str_max_tx_ipc_size d.MTP_MAX_TX_IPC_SIZE lines ∧
    (__read_mtp_conf d (some (unlines lines)) g).read_usb_size =
      conf_value str_read_usb_size d.MTP_READ_USB_SIZE lines ∧
    (__read_mtp_conf d (some (unlines lines)) g).write_usb_size =
      conf_value str_write_usb_size d.MTP_WRITE_USB_SIZE lines ∧
    (__read_mtp_conf d (some (unlines lines)) g).read_file_size =
      conf_value str_read_file_size d.MTP_READ_FILE_SIZE lines ∧
    (__read_mtp_conf d (some (unlines lines)) g).write_file_size =
      conf_value str_write_file_size d.MTP_WRITE_FILE_SIZE lines ∧
    (__read_mtp_conf d (some (unlines lines)) g).max_io_buf_size =
      conf_value str_max_io_buf_size d.MTP_MAX_IO_BUF_SIZE lines ∧
    (__read_mtp_conf d (some (unlines lines)) g).read_file_delay =
      conf_value str_read_file_delay d.MTP_READ_FILE_DELAY lines ∧
    (__read_mtp_conf d (some (unlines lines)) g).file_schedparam =
      conf_value str_file_schedparam
        (if d.MTP_SUPPORT_PTHREAD_SCHED ≠ 0 then d.MTP_FILE_SCHEDPARAM else g.file_schedparam) lines ∧
    (__read_mtp_conf d (some (unlines lines)) g).usb_schedparam =
      conf_value str_usb_schedparam
        (if d.MTP_SUPPORT_PTHREAD_SCHED ≠ 0 then d.MTP_USB_SCHEDPARAM else g.usb_schedparam) lines ∧
    __read_mtp_conf d (some (unlines (lines.filter (fun l => !is_blank_or_comment l)))) g =
      __read_mtp_conf d (some (unlines lines)) g := by
  have key := get_int_read_mtp_conf d g lines h
  have hd := read_mtp_conf_defaults_eq d g
  refine ⟨read_mtp_conf_is_init _ _ _, ?_, ?_, ?_, ?_, ?_, ?_, ?_, ?_, ?_, ?_, ?_, ?_, ?_, ?_⟩
  · simpa [conf_option.get_int, conf_option.name, hd] using key .mmap_threshold rfl
  · simpa [conf_option.get_int, conf_option.name, hd] using key .init_rx_ipc_size rfl
  · simpa [conf_option.get_int, conf_option.name, hd] using key .init_tx_ipc_size rfl
  · simpa [conf_option.get_int, conf_option.name, hd] using key .max_rx_ipc_size rfl
  · simpa [conf_option.get_int, conf_option.name, hd] using key .max_tx_ipc_size rfl
  · simpa [conf_option.get_int, conf_option.name, hd] using key .read_usb_size rfl
  · simpa [conf_option.get_int, conf_option.name, hd] using key .write_usb_size rfl
  · simpa [conf_option.get_int, conf_option.name, hd] using key .read_file_size rfl
  · simpa [conf_option.get_int, conf_option.name, hd] using key .write_file_size rfl
  · simpa [conf_option.get_int, conf_option.name, hd] using key .max_io_buf_size rfl
  · simpa [conf_option.get_int, conf_option.name, hd] using key .read_file_delay rfl
  · simpa [conf_option.get_int, conf_option.name, hd] using key .file_schedparam rfl
  · simpa [conf_option.get_int, conf_option.name, hd] using key .usb_schedparam rfl
  · have hf : ∀ l ∈ lines.filter (fun l => !is_blank_or_comment l),
        0 ∉ l ∧ 10 ∉ l ∧ l.length + 1 ≤ 255 :=
      fun l hl => h l (List.mem_of_mem_filter hl)
    unfold __read_mtp_conf
    simp only []
    rw [read_mtp_conf_loop_unlines _ _ hf, read_mtp_conf_loop_unlines _ _ h,
      foldl_filter_blank]

/-- C4 as stated fails. In the file of the two lines `\0` and `mmap_threshold=5`
each line ends with a newline and is short, yet `mmap_threshold` ends at its
default and not at 5: the NUL byte ends the loop at the first line. And with
`MTP_SUPPORT_PTHREAD_SCHED` equal to 0 and an empty file, `file_schedparam` ends
at the value it had before the call (14) and not at its default (0). -/
theorem read_mtp_conf_file_counterexample :
    ((∀ l ∈ lines_nul, 10 ∉ l ∧ l.length + 1 ≤ 255) ∧
      (__read_mtp_conf defaults_example (some (unlines lines_nul)) conf_example).mmap_threshold =
        524288 ∧
      conf_value str_mmap_threshold defaults_example.MTP_MMAP_THRESHOLD lines_nul = 5) ∧
    ((__read_mtp_conf defaults_no_sched (some (unlines [])) conf_example).file_schedparam = 14 ∧
      conf_value str_file_schedparam defaults_no_sched.MTP_FILE_SCHEDPARAM [] = 0) := by
  decide

/-- The amended C4 at the six lines of `lines_example`: the later of the two
lines that name `mmap_threshold` wins, and `read_usb_size`, which only a line
without a value names, ends at its default. -/
theorem read_mtp_conf_file_witness :
    (∀ l ∈ lines_example, 0 ∉ l ∧ 10 ∉ l ∧ l.length + 1 ≤ 255) ∧
    (__read_mtp_conf defaults_example (some (unlines lines_example)) conf_example).mmap_threshold =
      conf_value str_mmap_threshold defaults_example.MTP_MMAP_THRESHOLD lines_example ∧
    conf_value str_mmap_threshold defaults_example.MTP_MMAP_THRESHOLD lines_example = 7 ∧
    conf_value str_read_usb_size defaults_example.MTP_READ_USB_SIZE lines_example = 4096 :=
  ⟨by decide,
   (read_mtp_conf_file defaults_example conf_example lines_example (by decide)).2.1,
   by decide, by decide⟩
/-! ## C5: a line without its newline -/

theorem ends_lines_tail {c : Nat} {pre : List Nat} (h : ends_lines (c :: pre)) :
    ends_lines pre := by
  cases pre with
  | nil => exact Or.inl rfl
  | cons b pre =>
    right
    rcases h with h | h
    · exact absurd h (by simp)
    · rwa [List.getLast?_cons_cons] at h

theorem fgets_read_append {pre : List Nat} (t : List Nat) (h : ends_lines pre) (room : Nat) :
    fgets_read room (pre ++ t) = ((fgets_read room pre).1, (fgets_read room pre).2 ++ t) ∨
    pre = [] := by
  induction pre generalizing room with
  | nil => exact Or.inr rfl
  | cons c pre ih =>
    left
    cases room with
    | zero => simp [fgets_read]
    | succ r =>
      by_cases hc : c = 10
      · simp [fgets_read, hc]
      · rcases ih (ends_lines_tail h) r with e | e
        · simp [fgets_read, hc, e]
        · subst e
          rcases h with h | h
          · exact absurd h (by simp)
          · simp at h
            exact absurd h hc

theorem fgets_read_ends_lines {pre : List Nat} (h : ends_lines pre) (room : Nat) :
    ends_lines (fgets_read room pre).2 := by
  induction pre generalizing room with
  | nil => cases room <;> exact Or.inl rfl
  | cons c pre ih =>
    cases room with
    | zero => simpa [fgets_read] using h
    | succ r =>
      by_cases hc : c = 10
      · simpa [fgets_read, hc] using ends_lines_tail h
      · simpa [fgets_read, hc] using ih (ends_lines_tail h) r

theorem fgets_read_take {t : List Nat} (room : Nat) (h : 10 ∉ t.take room) :
    (fgets_read room t).1 = t.take room := by
  induction t generalizing room with
  | nil => cases room <;> simp [fgets_read]
  | cons c t ih =>
    cases room with
    | zero => simp [fgets_read]
    | succ r =>
      have hc : c ≠ 10 := by
        intro e
        apply h
        simp [e]
      have h1 : 10 ∉ t.take r := by
        intro m
        apply h
        simp [m]
      simp [fgets_read, hc, ih r h1]

/-- The body of the loop on a buffer without a newline that starts neither with
`#` nor with a newline: `break`, and `g_conf` as it was. -/
theorem read_mtp_conf_line_no_newline {buf : List Nat} (g : mtp_config_t)
    (hh : buf.head? ≠ some 35 ∧ buf.head? ≠ some 10) (hnl : 10 ∉ buf) :
    read_mtp_conf_line buf g = (false, g) := by
  rw [read_mtp_conf_line_eq, if_neg (by simp [hh.1, hh.2])]
  have : 10 ∉ c_str buf := by
    intro m
    unfold c_str at m
    exact hnl ((List.takeWhile_sublist _).subset m)
  rw [strrchr_none this]

theorem read_mtp_conf_loop_unterminated (t : List Nat) (g : mtp_config_t) (ht : t ≠ [])
    (hh : t.head? ≠ some 35 ∧ t.head? ≠ some 10) (hnl : 10 ∉ t.take 255) :
    read_mtp_conf_loop t.length t g = g := by
  cases t with
  | nil => exact absurd rfl ht
  | cons c t =>
    have hf : fgets 256 (c :: t) = some ((fgets_read 255 (c :: t)).1, (fgets_read 255 (c :: t)).2) := by
      simp [fgets]
    rw [read_mtp_conf_loop_step g hf, fgets_read_take 255 hnl]
    have hh2 : ((c :: t).take 255).head? ≠ some 35 ∧ ((c :: t).take 255).head? ≠ some 10 := by
      simpa using hh
    rw [read_mtp_conf_line_no_newline g hh2 hnl]
    simp

theorem read_mtp_conf_loop_append_aux (t : List Nat) (ht : t ≠ [])
    (hh : t.head? ≠ some 35 ∧ t.head? ≠ some 10) (hnl : 10 ∉ t.take 255) (n : Nat) :
    ∀ (pre : List Nat) (g : mtp_config_t), pre.length ≤ n → ends_lines pre →
      read_mtp_conf_loop (pre ++ t).length (pre ++ t) g =
        read_mtp_conf_loop pre.length pre g := by
  induction n with
  | zero =>
    intro pre g hlen _
    have : pre = [] := List.length_eq_zero.mp (by omega)
    subst this
    simp only [List.nil_append, read_mtp_conf_loop_nil]
    exact read_mtp_conf_loop_unterminated t g ht hh hnl
  | succ n ih =>
    intro pre g hlen hpre
    cases pre with
    | nil =>
      simp only [List.nil_append, read_mtp_conf_loop_nil]
      exact read_mtp_conf_loop_unterminated t g ht hh hnl
    | cons c pre =>
      have hf : fgets 256 (c :: pre) =
          some ((fgets_read 255 (c :: pre)).1, (fgets_read 255 (c :: pre)).2) := by
        simp [fgets]
      have hf2 : fgets 256 (c :: pre ++ t) =
          some ((fgets_read 255 (c :: pre)).1, (fgets_read 255 (c :: pre)).2 ++ t) := by
        rcases fgets_read_append t hpre 255 with e | e
        · simp only [fgets, List.cons_append] at e ⊢
          simp [e]
        · exact absurd e (by simp)
      have hlt := fgets_consumes (by decide) hf
      rw [read_mtp_conf_loop_step g hf, read_mtp_conf_loop_step g hf2]
      split
      · exact ih _ _ (by omega) (fgets_read_ends_lines hpre 255)
      · rfl

/-- C5: when what follows a sequence of complete lines `pre` starts neither with
`#` nor with a newline and has no newline within the 255 bytes `fgets` reads (an
over-long line, or a last line without its newline), `__read_mtp_conf` ends as
it does on `pre` alone: that text is not applied, nothing after it is, the
overrides of the earlier lines are kept, and `is_init` is true. -/
theorem read_mtp_conf_unterminated (d : mtp_defaults) (g : mtp_config_t) (pre t : List Nat)
    (hpre : pre = [] ∨ pre.getLast? = some 10) (ht : t ≠ [])
    (hh : t.head? ≠ some 35 ∧ t.head? ≠ some 10) (hnl : 10 ∉ t.take 255) :
    __read_mtp_conf d (some (pre ++ t)) g = __read_mtp_conf d (some pre) g ∧
    (__read_mtp_conf d (some (pre ++ t)) g).is_init = true := by
  refine ⟨?_, read_mtp_conf_is_init _ _ _⟩
  unfold __read_mtp_conf
  simp only []
  rw [read_mtp_conf_loop_append_aux t ht hh hnl pre.length pre _ (le_refl _) hpre]

/-- The statement C5 at the line `mmap_threshold=5` followed by the text
`read_usb_size=9` without a newline: `read_usb_size` ends at its default and
`mmap_threshold` at 5. -/
theorem read_mtp_conf_unterminated_witness :
    ((file_one_line = [] ∨ file_one_line.getLast? = some 10) ∧ line_unterminated ≠ [] ∧
      (line_unterminated.head? ≠ some 35 ∧ line_unterminated.head? ≠ some 10) ∧
      10 ∉ line_unterminated.take 255) ∧
    (__read_mtp_conf defaults_example (some (file_one_line ++ line_unterminated)) conf_example =
        __read_mtp_conf defaults_example (some file_one_line) conf_example ∧
      (__read_mtp_conf defaults_example (some (file_one_line ++ line_unterminated))
        conf_example).is_init = true) ∧
    (__read_mtp_conf defaults_example (some (file_one_line ++ line_unterminated))
      conf_example).read_usb_size = 4096 ∧
    (__read_mtp_conf defaults_example (some (file_one_line ++ line_unterminated))
      conf_example).mmap_threshold = 5 :=
  ⟨by decide,
   read_mtp_conf_unterminated defaults_example conf_example file_one_line line_unterminated
     (by decide) (by decide) (by decide) (by decide),
   by decide, by decide⟩

/-! ## C6: lines without a value -/

theorem first_token_replicate (k : Nat) : first_token (List.replicate k 61) = [] := by
  induction k with
  | zero => rfl
  | succ k ih =>
    unfold first_token at ih ⊢
    simp [List.replicate_succ, List.dropWhile_cons]

theorem tokens_key_only {key : List Nat} (k : Nat) (h : 61 ∉ key) (hne : key ≠ []) :
    first_token (key ++ List.replicate k 61) = key ∧
    second_token (key ++ List.replicate k 61) = [] := by
  cases k with
  | zero =>
    have hd : key.dropWhile (fun c => c == 61) = key := by
      cases key with
      | nil => exact absurd rfl hne
      | cons x key =>
        have hx : x ≠ 61 := fun e => h (e ▸ List.mem_cons_self _ _)
        simp [List.dropWhile_cons, hx]
    have ht : key.takeWhile (fun c => c != 61) = key := by
      rw [List.takeWhile_eq_self_iff]
      intro x hx
      have : x ≠ 61 := fun e => h (e ▸ hx)
      simpa using this
    have hdw : key.dropWhile (fun c => c != 61) = [] := by
      have := List.takeWhile_append_dropWhile (fun c => c != 61) key
      rw [ht] at this
      simpa using this
    simp only [List.replicate_zero, List.append_nil]
    unfold second_token after_first_token first_token
    rw [hd, ht, hdw]
    exact ⟨rfl, rfl⟩
  | succ k =>
    rw [List.replicate_succ]
    obtain ⟨t1, t2⟩ := first_token_key (List.replicate k 61) h hne
    refine ⟨t1, ?_⟩
    unfold second_token
    rw [t2]
    have := first_token_replicate (k + 1)
    rwa [List.replicate_succ] at this

/-- C6, amended: a line of at most 255 bytes (newline included) that names a
recognised option but gives no value (`key` alone, or `key` followed only by `=`
characters, then the newline) overrides nothing: every field of `g_conf`, the
named one included, keeps the value it had before the line, and the loop goes
on with what follows the line. -/
theorem no_value_line (o : conf_option) (key : List Nat) (k : Nat) (rest : List Nat)
    (g : mtp_config_t) (hkey : eq_ignore_case key o.name)
    (hlen : (key ++ List.replicate k 61).length + 1 ≤ 255) :
    read_mtp_conf_line (key ++ List.replicate k 61 ++ [10]) g = (true, g) ∧
    read_mtp_conf_loop (key ++ List.replicate k 61 ++ 10 :: rest).length
        (key ++ List.replicate k 61 ++ 10 :: rest) g =
      read_mtp_conf_loop rest.length rest g := by
  have hk61 := key_no_special hkey 61 (by decide)
  have hk0 := key_no_special hkey 0 (by decide)
  have hk10 := key_no_special hkey 10 (by decide)
  have hkne := key_ne_nil hkey
  have hl0 : 0 ∉ key ++ List.replicate k 61 := by
    simp only [List.mem_append, List.mem_replicate]
    rintro (h | h)
    · exact hk0 h
    · exact absurd h.2 (by decide)
  have hl10 : 10 ∉ key ++ List.replicate k 61 := by
    simp only [List.mem_append, List.mem_replicate]
    rintro (h | h)
    · exact hk10 h
    · exact absurd h.2 (by decide)
  obtain ⟨t1, t2⟩ := tokens_key_only k hk61 hkne
  have he : conf_line_effect (key ++ List.replicate k 61) g = g := by
    unfold conf_line_effect
    rw [t1, t2, option_of_key_eq hkey]
    simp
  constructor
  · rw [read_mtp_conf_line_text hl0 hl10, he]
  · rw [read_mtp_conf_loop_text_line rest g hl0 hl10 hlen, he]

/-- C6 as stated fails. The line made of `read_usb_size` and 250 `=` characters
names a recognised option and gives no value, but it is longer than the 255
bytes `fgets` reads at once: the loop ends there, and the line
`mmap_threshold=5` that follows it is not processed (`g_conf` is unchanged, when
that line alone sets `mmap_threshold` to 5). -/
theorem no_value_line_counterexample :
    eq_ignore_case str_read_usb_size conf_option.read_usb_size.name ∧
    read_mtp_conf_loop (str_read_usb_size ++ List.replicate 250 61 ++ 10 :: file_one_line).length
      (str_read_usb_size ++ List.replicate 250 61 ++ 10 :: file_one_line) conf_example =
        conf_example ∧
    read_mtp_conf_loop file_one_line.length file_one_line conf_example =
      { conf_example with mmap_threshold := 5 } := by
  decide

/-- The amended C6 at the line `Max_IO_Buf_Size==`, followed by the line
`mmap_threshold=5`. -/
theorem no_value_line_witness :
    (eq_ignore_case key_mixed_case conf_option.max_io_buf_size.name ∧
      (key_mixed_case ++ List.replicate 2 61).length + 1 ≤ 255) ∧
    read_mtp_conf_line (key_mixed_case ++ List.replicate 2 61 ++ [10]) conf_example =
      (true, conf_example) ∧
    read_mtp_conf_loop (key_mixed_case ++ List.replicate 2 61 ++ 10 :: file_one_line).length
        (key_mixed_case ++ List.replicate 2 61 ++ 10 :: file_one_line) conf_example =
      read_mtp_conf_loop file_one_line.length file_one_line conf_example :=
  ⟨by decide, no_value_line conf_option.max_io_buf_size key_mixed_case 2 file_one_line
    conf_example (by decide) (by decide)⟩

/-! ## Lemmas on buffers -/

theorem c_str_length_le (l : List Nat) : (c_str l).length ≤ l.length := by
  unfold c_str
  exact (List.takeWhile_sublist _).length_le

/-- The string stored in an array that starts with the NUL-free bytes `s` and
a NUL. -/
theorem c_str_append_nul {s : List Nat} (r : List Nat) (h : 0 ∉ s) :
    c_str (s ++ 0 :: r) = s := by
  unfold c_str
  induction s with
  | nil => simp
  | cons x s ih =>
    have hx : x ≠ 0 := fun e => h (e ▸ List.mem_cons_self _ _)
    have h1 : 0 ∉ s := fun m => h (List.mem_cons_of_mem _ m)
    simp [List.takeWhile_cons, hx, ih h1]

theorem write_bytes_zero (m bytes : List Nat) (h : bytes.length ≤ m.length) :
    write_bytes m 0 bytes = some (bytes ++ m.drop bytes.length) := by
  unfold write_bytes
  simp [h]

theorem write_bytes_at (a b bytes old : List Nat) (h : old.length = bytes.length) :
    write_bytes (a ++ old ++ b) a.length bytes = some (a ++ bytes ++ b) := by
  unfold write_bytes
  have h1 : a.length + bytes.length ≤ (a ++ old ++ b).length := by
    simp [h]
  rw [if_pos h1]
  have h2 : (a ++ old ++ b).take a.length = a := by
    rw [List.append_assoc, List.take_left']
    rfl
  have h3 : (a ++ old ++ b).drop (a.length + bytes.length) = b := by
    rw [← h, ← List.length_append, List.drop_left']
    rfl
  rw [h2, h3]

theorem cons_replicate_zero (k : Nat) (rest : List Nat) :
    (0 : Nat) :: (List.replicate k 0 ++ rest) = List.replicate k 0 ++ 0 :: rest := by
  induction k with
  | zero => rfl
  | succ k ih => simp [List.replicate_succ, ih]

/-- The effect of `strncpy(dst, src, n + 1); dst[n] = 0` when the string at
`src` has at most `n` bytes and the array has room for `n + 1`: the string and
its NUL are at the start of the array, whose length is unchanged. -/
theorem copy_string (m src : List Nat) (n : Nat) (hn : (c_str src).length ≤ n)
    (hcap : n + 1 ≤ m.length) :
    ∃ r, r.length + (c_str src).length + 1 = m.length ∧
      strncpy m src (n + 1) = some (c_str src ++ 0 :: r) ∧
      write_bytes (c_str src ++ 0 :: r) n [0] = some (c_str src ++ 0 :: r) := by
  have hb : strncpy_bytes src (n + 1) =
      c_str src ++ 0 :: List.replicate (n - (c_str src).length) 0 := by
    unfold strncpy_bytes
    have e : n + 1 - (c_str src).length = (n - (c_str src).length) + 1 := by omega
    rw [List.take_of_length_le (by omega), e, List.replicate_succ]
  have hlen : (strncpy_bytes src (n + 1)).length = n + 1 := by
    rw [hb]
    simp
    omega
  refine ⟨List.replicate (n - (c_str src).length) 0 ++ m.drop (n + 1), ?_, ?_, ?_⟩
  · simp
    omega
  · unfold strncpy
    rw [write_bytes_zero _ _ (by omega), hlen, hb]
    simp
  · have e : c_str src ++ 0 :: (List.replicate (n - (c_str src).length) 0 ++ m.drop (n + 1)) =
        (c_str src ++ List.replicate (n - (c_str src).length) 0) ++ [0] ++ m.drop (n + 1) := by
      rw [cons_replicate_zero]
      simp
    have hl : (c_str src ++ List.replicate (n - (c_str src).length) 0).length = n := by
      simp
      omega
    rw [e]
    have := write_bytes_at (c_str src ++ List.replicate (n - (c_str src).length) 0)
      (m.drop (n + 1)) [0] [0] rfl
    rw [hl] at this
    exact this

/-- The effect of `strncat(dst, src, n)` when the array starts with the NUL-free
string `s` and a NUL, the string at `src` has at most `n` bytes and the array
has room for it. -/
theorem strncat_string (s r src : List Nat) (n : Nat) (hs : 0 ∉ s)
    (hn : (c_str src).length ≤ n) (hcap : (c_str src).length ≤ r.length) :
    strncat (s ++ 0 :: r) src n =
      some (s ++ c_str src ++ 0 :: r.drop (c_str src).length) := by
  unfold strncat
  rw [if_pos (by simp), c_str_append_nul r hs, List.take_of_length_le hn]
  have e : s ++ 0 :: r = s ++ (0 :: r.take (c_str src).length) ++ r.drop (c_str src).length := by
    simp
  rw [e]
  have := write_bytes_at s (r.drop (c_str src).length) (c_str src ++ [0])
    (0 :: r.take (c_str src).length) (by simp [hcap])
  rw [this]
  simp

/-! ## C7: `_util_get_serial` -/

theorem format_02X_byte :
    ∀ b, b < 256 → format_02X b = [hex_digit (b / 16), hex_digit (b % 16)] := by
  decide

theorem char_to_int_unsigned (char_signed : Bool) (b : Nat) (hb : b < 256)
    (h : char_signed = false ∨ b < 128) : int_to_unsigned (char_to_int char_signed b) = b := by
  unfold char_to_int int_to_unsigned
  have : ¬ (char_signed = true ∧ 128 ≤ b) := by
    rintro ⟨h1, h2⟩
    rcases h with h | h
    · rw [h] at h1; exact absurd h1 (by decide)
    · omega
  rw [if_neg this]
  omega

theorem hex_digit_ne_zero (d : Nat) : hex_digit d ≠ 0 := by
  unfold hex_digit
  split <;> omega

theorem hex_of_bytes_no_nul (hash : List Nat) : 0 ∉ hex_of_bytes hash := by
  induction hash with
  | nil => simp [hex_of_bytes]
  | cons b bs ih =>
    simp only [hex_of_bytes, List.mem_cons, not_or]
    exact ⟨fun e => hex_digit_ne_zero _ e.symm, fun e => hex_digit_ne_zero _ e.symm, ih⟩

theorem hex_of_bytes_length (hash : List Nat) : (hex_of_bytes hash).length = 2 * hash.length := by
  induction hash with
  | nil => rfl
  | cons b bs ih => simp [hex_of_bytes, ih]; omega

/-- One turn of the loop of `_util_get_serial` when the byte prints as its two
hexadecimal digits. -/
theorem g_snprintf_byte (char_signed : Bool) (b : Nat) (hb : b < 256)
    (h : char_signed = false ∨ b < 128) (pre suf : List Nat) (i : Nat)
    (hpre : pre.length = i * 2) (hsuf : 3 ≤ suf.length) :
    g_snprintf (pre ++ suf) (i * 2) 3 (format_02X (int_to_unsigned (char_to_int char_signed b))) =
      some (pre ++ [hex_digit (b / 16), hex_digit (b % 16)] ++ 0 :: suf.drop 3) := by
  rw [char_to_int_unsigned char_signed b hb h, format_02X_byte b hb]
  unfold g_snprintf
  rw [if_neg (by decide)]
  have e : pre ++ suf = pre ++ suf.take 3 ++ suf.drop 3 := by simp
  rw [e, ← hpre]
  have := write_bytes_at pre (suf.drop 3)
    ([hex_digit (b / 16), hex_digit (b % 16)].take (3 - 1) ++ [0]) (suf.take 3)
    (by simp; omega)
  rw [this]
  simp

theorem drop_take_succ (hash : List Nat) (i t : Nat) (hi : i < hash.length) :
    (hash.drop i).take (t + 1) = hash.getD i 0 :: (hash.drop (i + 1)).take t := by
  rw [List.drop_eq_getElem_cons hi, List.take_succ_cons, List.getD_eq_getElem _ _ hi]

/-- The loop of `_util_get_serial` when every byte prints as its two hexadecimal
digits: it stores the digits of `todo + 1` bytes and one NUL. -/
theorem _util_get_serial_loop_spec (char_signed : Bool) (hash : List Nat)
    (hb : ∀ b ∈ hash, b < 256) (hs : char_signed = false ∨ ∀ b ∈ hash, b < 128) (todo : Nat) :
    ∀ (i : Nat) (pre suf : List Nat), pre.length = i * 2 → 2 * (todo + 1) + 1 ≤ suf.length →
      i + (todo + 1) ≤ hash.length →
      _util_get_serial_loop char_signed hash i (todo + 1) (pre ++ suf) =
        some (pre ++ hex_of_bytes ((hash.drop i).take (todo + 1)) ++
          0 :: suf.drop (2 * (todo + 1) + 1)) := by
  induction todo with
  | zero =>
    intro i pre suf hpre hsuf hi
    have hlt : i < hash.length := by omega
    have hmem : hash.getD i 0 ∈ hash := by
      rw [List.getD_eq_getElem _ _ hlt]
      exact List.getElem_mem _
    have hs1 : char_signed = false ∨ hash.getD i 0 < 128 := hs.imp id (fun h => h _ hmem)
    simp only [_util_get_serial_loop]
    rw [g_snprintf_byte char_signed _ (hb _ hmem) hs1 pre suf i hpre (by omega),
      drop_take_succ hash i 0 hlt]
    simp [hex_of_bytes]
  | succ t ih =>
    intro i pre suf hpre hsuf hi
    have hlt : i < hash.length := by omega
    have hmem : hash.getD i 0 ∈ hash := by
      rw [List.getD_eq_getElem _ _ hlt]
      exact List.getElem_mem _
    have hs1 : char_signed = false ∨ hash.getD i 0 < 128 := hs.imp id (fun h => h _ hmem)
    rw [_util_get_serial_loop]
    rw [g_snprintf_byte char_signed _ (hb _ hmem) hs1 pre suf i hpre (by omega)]
    simp only []
    have hpre1 : (pre ++ [hex_digit (hash.getD i 0 / 16), hex_digit (hash.getD i 0 % 16)]).length =
        (i + 1) * 2 := by
      simp
      omega
    have hsuf1 : 2 * (t + 1) + 1 ≤ (0 :: suf.drop 3).length := by
      simp
      omega
    rw [ih (i + 1) _ _ hpre1 hsuf1 (by omega), drop_take_succ hash i (t + 1) hlt]
    have e : (0 :: suf.drop 3).drop (2 * (t + 1) + 1) = suf.drop (2 * (t + 1 + 1) + 1) := by
      rw [List.drop_succ_cons, List.drop_drop]
      congr 1
      omega
    rw [e]
    simp [hex_of_bytes]

/-- The part of C7 the code fulfils: where plain `char` is unsigned, or when no
byte of the hash is in `0x80..0xFF`, `_util_get_serial` with a buffer of at least
`len > 2 * MD5_HASH_LEN` bytes returns TRUE and leaves in the buffer the
NUL-terminated string of the `2 * MD5_HASH_LEN` hexadecimal digits of the hash,
the bytes of the buffer above index `2 * MD5_HASH_LEN` being unchanged. -/
theorem _util_get_serial_hex (char_signed : Bool) (MD5_HASH_LEN : Nat) (hash_value : List Nat)
    (mem : List Nat) (len : Nat) (hn : hash_value.length = MD5_HASH_LEN) (hpos : 0 < MD5_HASH_LEN)
    (_hsmall : MD5_HASH_LEN < 65536)
    (hb : ∀ b ∈ hash_value, b < 256)
    (hs : char_signed = false ∨ ∀ b ∈ hash_value, b < 128)
    (hlen : MD5_HASH_LEN * 2 < len) (hcap : len ≤ mem.length) :
    _util_get_serial char_signed MD5_HASH_LEN hash_value (some mem) len =
      some (true, some (hex_of_bytes hash_value ++ 0 :: mem.drop (2 * MD5_HASH_LEN + 1))) ∧
    c_str (hex_of_bytes hash_value ++ 0 :: mem.drop (2 * MD5_HASH_LEN + 1)) =
      hex_of_bytes hash_value ∧
    (hex_of_bytes hash_value).length = 2 * MD5_HASH_LEN := by
  refine ⟨?_, c_str_append_nul _ (hex_of_bytes_no_nul _), by rw [hex_of_bytes_length, hn]⟩
  unfold _util_get_serial
  simp only []
  rw [if_neg (by omega)]
  obtain ⟨t, ht⟩ : ∃ t, MD5_HASH_LEN = t + 1 := ⟨MD5_HASH_LEN - 1, by omega⟩
  have := _util_get_serial_loop_spec char_signed hash_value hb hs t 0 [] mem rfl
    (by omega) (by omega)
  rw [ht]
  simp only [List.nil_append] at this
  rw [this]
  simp only [List.drop_zero]
  rw [List.take_of_length_le (by omega)]

/-- The part of C7 on refusals: when `serial` is NULL or `len <= 2 * MD5_HASH_LEN`,
`_util_get_serial` returns FALSE and writes nothing. -/
theorem _util_get_serial_refused (char_signed : Bool) (MD5_HASH_LEN : Nat)
    (hash_value : List Nat) (serial : Option (List Nat)) (len : Nat)
    (h : serial = none ∨ len ≤ MD5_HASH_LEN * 2) :
    _util_get_serial char_signed MD5_HASH_LEN hash_value serial len = some (false, serial) := by
  unfold _util_get_serial
  cases serial with
  | none => rfl
  | some mem =>
    rcases h with h | h
    · exact absurd h (by simp)
    · simp [h]

/-- C7, the defect: where plain `char` is signed, `_util_get_serial` on the hash
`80 01 FF 7F 00 AB ...` and a buffer of 33 bytes returns TRUE and leaves the string
`FF01FF7F00FF...`: each byte in `0x80..0xFF` is promoted to a negative `int`, `%02X`
prints it with eight digits (`FFFFFF80`) and the size 3 given to `g_snprintf` keeps
`FF`. The two hexadecimal digits of these bytes would be `80`, `FF` and `AB`. -/
theorem _util_get_serial_signed_char :
    _util_get_serial true 16 hash_example (some (List.replicate 33 66)) 33 =
      some (true, some [70, 70, 48, 49, 70, 70, 55, 70, 48, 48, 70, 70, 49, 48, 48, 57,
        48, 49, 48, 50, 48, 51, 48, 52, 48, 53, 48, 54, 48, 55, 48, 56, 0]) ∧
    hex_of_bytes hash_example = [56, 48, 48, 49, 70, 70, 55, 70, 48, 48, 65, 66, 49, 48, 48, 57,
        48, 49, 48, 50, 48, 51, 48, 52, 48, 53, 48, 54, 48, 55, 48, 56] := by
  decide

/-! ## C8: the two paths of `_mtp_init` -/

theorem states_set_append (a b : List init_call) :
    states_set (a ++ b) = states_set a ++ states_set b := by
  induction a with
  | nil => rfl
  | cons c a ih => cases c <;> simp [states_set, ih]

theorem called_before_split {x y : init_call} {t : List init_call}
    (h : called_before x y t = true) : ∃ a b c, t = a ++ x :: b ++ y :: c := by
  induction t with
  | nil => simp [called_before] at h
  | cons c t ih =>
    by_cases hc : c = x
    · simp only [called_before, hc, if_true, decide_eq_true_eq] at h
      obtain ⟨b, c1, hb⟩ := List.append_of_mem h
      exact ⟨[], b, c1, by simp [hc, hb]⟩
    · simp only [called_before, hc, if_false] at h
      obtain ⟨a, b, c1, e⟩ := ih h
      exact ⟨c :: a, b, c1, by simp [e]⟩

/-- C8: whenever `g_malloc` yields NULL for the temporary file buffer, or the
external storage directory is missing and cannot be created, `_mtp_init` sets
the operation state to `MTP_STATE_INITIALIZING` and then, last, to
`MTP_STATE_STOPPED`, calls `mtp_end_event` exactly once, and calls neither
`_init_mtp_device` nor `_device_install_storage`; when both steps succeed it never
sets `MTP_STATE_STOPPED` and calls `_init_mtp_device` before
`_device_install_storage`. -/
theorem _mtp_init_paths (d : mtp_defaults) (env : init_env) (g_conf : mtp_config_t)
    (g_mgr : mtp_mgr_t) :
    ((env.g_malloc (int_to_gsize (__read_mtp_conf d env.conf_file g_conf).write_file_size) = none ∨
        (env.access_ok = false ∧ env.dir_create_ok = false)) →
      states_set (_mtp_init d env g_conf g_mgr).1 =
        [mtp_state_t.MTP_STATE_INITIALIZING, mtp_state_t.MTP_STATE_STOPPED] ∧
      (_mtp_init d env g_conf g_mgr).1.count init_call.mtp_end_event = 1 ∧
      init_call._init_mtp_device ∉ (_mtp_init d env g_conf g_mgr).1 ∧
      init_call._device_install_storage ∉ (_mtp_init d env g_conf g_mgr).1) ∧
    ((env.g_malloc (int_to_gsize (__read_mtp_conf d env.conf_file g_conf).write_file_size) ≠ none ∧
        (env.access_ok = true ∨ env.dir_create_ok = true)) →
      init_call._transport_set_mtp_operation_state mtp_state_t.MTP_STATE_STOPPED ∉
        (_mtp_init d env g_conf g_mgr).1 ∧
      ∃ a b c, (_mtp_init d env g_conf g_mgr).1 =
        a ++ init_call._init_mtp_device :: b ++ init_call._device_install_storage :: c) := by
  constructor
  · intro h
    unfold _mtp_init __init_mtp_info
    simp only []
    by_cases hm : (__read_mtp_conf d env.conf_file g_conf).mmap_threshold = 0 <;>
    cases hg : env.g_malloc (int_to_gsize (__read_mtp_conf d env.conf_file g_conf).write_file_size) <;>
    cases ha : env.access_ok <;> cases hc : env.dir_create_ok <;>
    cases he : env.MTP_SUPPORT_OBJECTADDDELETE_EVENT <;>
    simp_all [states_set, states_set_append]
  · intro h
    have key : init_call._transport_set_mtp_operation_state mtp_state_t.MTP_STATE_STOPPED ∉
          (_mtp_init d env g_conf g_mgr).1 ∧
        called_before init_call._init_mtp_device init_call._device_install_storage
          (_mtp_init d env g_conf g_mgr).1 = true := by
      unfold _mtp_init __init_mtp_info
      simp only []
      by_cases hm : (__read_mtp_conf d env.conf_file g_conf).mmap_threshold = 0 <;>
      cases hg : env.g_malloc (int_to_gsize (__read_mtp_conf d env.conf_file g_conf).write_file_size) <;>
      cases ha : env.access_ok <;> cases hc : env.dir_create_ok <;>
      cases he : env.MTP_SUPPORT_OBJECTADDDELETE_EVENT <;>
      simp_all [called_before]
    exact ⟨key.1, called_before_split key.2⟩

/-- The arguments of `mallopt` and `g_malloc` with the configuration file
`file_large_values`: twice `1073741824` is `-2147483648` as an `int`, and `-1` is
`2 ^ 64 - 1` as a `gsize`. -/
theorem _mtp_init_int_arguments :
    init_call.mallopt_M_TRIM_THRESHOLD (-2147483648) ∈
      (_mtp_init defaults_example { env_created with conf_file := some file_large_values }
        conf_example { temp_buff := none }).1 ∧
    init_call.g_malloc 18446744073709551615 ∈
      (_mtp_init defaults_example { env_created with conf_file := some file_large_values }
        conf_example { temp_buff := none }).1 := by
  decide

/-- The statement C8 at an environment where `g_malloc` returns NULL, and at one
where both steps succeed. -/
theorem _mtp_init_paths_witness :
    (states_set (_mtp_init defaults_example env_no_memory conf_example { temp_buff := none }).1 =
        [mtp_state_t.MTP_STATE_INITIALIZING, mtp_state_t.MTP_STATE_STOPPED] ∧
      (_mtp_init defaults_example env_no_memory conf_example { temp_buff := none }).1.count
        init_call.mtp_end_event = 1) ∧
    init_call._transport_set_mtp_operation_state mtp_state_t.MTP_STATE_STOPPED ∉
      (_mtp_init defaults_example env_created conf_example { temp_buff := none }).1 :=
  ⟨⟨((_mtp_init_paths defaults_example env_no_memory conf_example { temp_buff := none }).1
        (Or.inl rfl)).1,
     ((_mtp_init_paths defaults_example env_no_memory conf_example { temp_buff := none }).1
        (Or.inl rfl)).2.1⟩,
   ((_mtp_init_paths defaults_example env_created conf_example { temp_buff := none }).2
      ⟨by decide, Or.inr rfl⟩).1⟩
/-! ## C9: `_util_get_external_path` -/

/-- The callback on a device that is not external, or has no path: nothing is
written. -/
theorem _util_device_external_supported_cb_other (dev : storage_device)
    (data : Option (List Nat))
    (h : dev.type ≠ storage_type_e.STORAGE_TYPE_EXTERNAL ∨ dev.path = none) :
    _util_device_external_supported_cb dev data = some (true, data) := by
  unfold _util_device_external_supported_cb
  have : ¬ (dev.type = storage_type_e.STORAGE_TYPE_EXTERNAL ∧ dev.path ≠ none) := by
    rintro ⟨h1, h2⟩
    rcases h with h | h
    · exact h h1
    · exact h2 h
  rw [if_neg this]

/-- The callback on an external device with a path: the path is copied to the
start of the array. -/
theorem _util_device_external_supported_cb_external (dev : storage_device) (p m : List Nat)
    (ht : dev.type = storage_type_e.STORAGE_TYPE_EXTERNAL) (hp : dev.path = some p)
    (hcap : (c_str p).length + 1 ≤ m.length) :
    ∃ r, r.length + (c_str p).length + 1 = m.length ∧
      _util_device_external_supported_cb dev (some m) = some (true, some (c_str p ++ 0 :: r)) := by
  obtain ⟨r, hr, h1, h2⟩ := copy_string m p (c_str p).length (le_refl _) hcap
  refine ⟨r, hr, ?_⟩
  unfold _util_device_external_supported_cb
  have : dev.type = storage_type_e.STORAGE_TYPE_EXTERNAL ∧ dev.path ≠ none := by
    rw [hp]
    exact ⟨ht, by simp⟩
  rw [if_pos this, hp]
  simp only [h1, h2]

theorem storage_foreach_device_supported_spec (devices : List storage_device) (error : Int) :
    ∀ m : List Nat, (∀ p ∈ external_paths devices, p.length + 1 ≤ m.length) →
    ∃ m1, storage_foreach_device_supported devices error (some m) = some (error, some m1) ∧
      m1.length = m.length ∧
      match (external_paths devices).getLast? with
      | some p => c_str m1 = p
      | none => m1 = m := by
  induction devices with
  | nil =>
    intro m _
    exact ⟨m, rfl, rfl, rfl⟩
  | cons dev rest ih =>
    intro m hcap
    by_cases hext : dev.type = storage_type_e.STORAGE_TYPE_EXTERNAL ∧ ∃ p, dev.path = some p
    · obtain ⟨ht, p, hp⟩ := hext
      have hps : external_paths (dev :: rest) = c_str p :: external_paths rest := by
        simp [external_paths, ht, hp]
      have hc := hcap (c_str p) (by rw [hps]; exact List.mem_cons_self _ _)
      obtain ⟨r, hr, hcb⟩ := _util_device_external_supported_cb_external dev p m ht hp hc
      have hlen : (c_str p ++ 0 :: r).length = m.length := by
        simp
        omega
      obtain ⟨m1, h1, h2, h3⟩ := ih (c_str p ++ 0 :: r) (by
        intro q hq
        rw [hlen]
        exact hcap q (by rw [hps]; exact List.mem_cons_of_mem _ hq))
      refine ⟨m1, ?_, by rw [h2, hlen], ?_⟩
      · simp only [storage_foreach_device_supported, hcb, h1]
      · rw [hps, getLast?_cons_eq]
        cases hl : (external_paths rest).getLast? with
        | some q =>
          rw [hl] at h3
          exact h3
        | none =>
          rw [hl] at h3
          simp only []
          rw [h3]
          exact c_str_append_nul r (c_str_no_nul p)
    · have hother : dev.type ≠ storage_type_e.STORAGE_TYPE_EXTERNAL ∨ dev.path = none := by
        by_cases ht : dev.type = storage_type_e.STORAGE_TYPE_EXTERNAL
        · right
          cases hp : dev.path with
          | none => rfl
          | some p => exact absurd ⟨ht, p, hp⟩ hext
        · exact Or.inl ht
      have hps : external_paths (dev :: rest) = external_paths rest := by
        rcases hother with h | h
        · simp [external_paths, h]
        · simp [external_paths, h]
      have hcb := _util_device_external_supported_cb_other dev (some m) hother
      obtain ⟨m1, h1, h2, h3⟩ := ih m (by
        intro q hq
        exact hcap q (by rw [hps]; exact hq))
      refine ⟨m1, ?_, h2, ?_⟩
      · simp only [storage_foreach_device_supported, hcb, h1]
      · rw [hps]
        exact h3

/-- C9, amended: for a buffer that is not NULL and has room for the path, and its
NUL, of every enumerated device of type `STORAGE_TYPE_EXTERNAL` whose path is not
NULL: when the enumeration reports an error and the buffer also has room for
`MTP_EXTERNAL_PATH_CHAR` and its NUL, `_util_get_external_path` leaves in it exactly
`MTP_EXTERNAL_PATH_CHAR`, whatever the callback wrote before; when the
enumeration succeeds, it leaves the path of the last enumerated device of type
`STORAGE_TYPE_EXTERNAL` with a path that is not NULL, the buffer being unchanged
when there is no such device. The callback never changes the buffer for a
device of another type. -/
theorem _util_get_external_path_spec (MTP_EXTERNAL_PATH_CHAR : List Nat)
    (devices : List storage_device) (error : Int) (mem : List Nat)
    (hcap : ∀ p ∈ external_paths devices, p.length + 1 ≤ mem.length) :
    (error ≠ 0 → MTP_EXTERNAL_PATH_CHAR.length + 1 ≤ mem.length →
      ∃ m1, _util_get_external_path MTP_EXTERNAL_PATH_CHAR devices error (some mem) =
          some (some m1) ∧
        c_str m1 = c_str MTP_EXTERNAL_PATH_CHAR) ∧
    (error = 0 →
      ∃ m1, _util_get_external_path MTP_EXTERNAL_PATH_CHAR devices error (some mem) =
          some (some m1) ∧
        match (external_paths devices).getLast? with
        | some p => c_str m1 = p
        | none => m1 = mem) ∧
    (∀ (dev : storage_device) (data : Option (List Nat)),
      dev.type ≠ storage_type_e.STORAGE_TYPE_EXTERNAL →
      _util_device_external_supported_cb dev data = some (true, data)) := by
  obtain ⟨m1, h1, h2, h3⟩ := storage_foreach_device_supported_spec devices error mem hcap
  refine ⟨?_, ?_, ?_⟩
  · intro he hlit
    obtain ⟨r, _, c1, c2⟩ := copy_string m1 MTP_EXTERNAL_PATH_CHAR MTP_EXTERNAL_PATH_CHAR.length
      (c_str_length_le _) (by omega)
    refine ⟨c_str MTP_EXTERNAL_PATH_CHAR ++ 0 :: r, ?_, c_str_append_nul r (c_str_no_nul _)⟩
    unfold _util_get_external_path
    simp only [h1, he, ne_eq, not_false_eq_true, if_true, c1, Nat.add_sub_cancel, c2]
  · intro he
    subst he
    refine ⟨m1, ?_, h3⟩
    unfold _util_get_external_path
    simp [h1]
  · intro dev data ht
    exact _util_device_external_supported_cb_other dev data (Or.inl ht)

/-- C9 as stated fails, as the function takes no length and copies without a
bound. After an error, with a buffer of 8 bytes that is not NULL, the 10 bytes
of `/opt/media` and its NUL are written past the end of the buffer: the
behaviour is undefined and no result is `MTP_EXTERNAL_PATH_CHAR`. After a
success, with the same buffer, the 11 bytes of `/opt/sdcard` and its NUL are
written past its end, and the path `/mnt/usb` of the last external device does
not fit either. After a success with a NULL buffer, the callback writes through
NULL. -/
theorem _util_get_external_path_spec_counterexample :
    (buffer_8.length = 8 ∧ str_opt_media.length + 1 = 11 ∧
      _util_get_external_path str_opt_media [] 1 (some buffer_8) = none) ∧
    ((external_paths devices_example).getLast? = some str_mnt_usb ∧
      str_mnt_usb.length + 1 = 9 ∧
      _util_get_external_path str_opt_media devices_example 0 (some buffer_8) = none) ∧
    _util_get_external_path str_opt_media devices_example 0 none = none := by
  decide

/-- The amended C9 at `devices_example` and a buffer of 32 bytes: `/opt/media`
after an error, `/mnt/usb` after a success. -/
theorem _util_get_external_path_spec_witness :
    (∀ p ∈ external_paths devices_example, p.length + 1 ≤ buffer_example.length) ∧
    (∃ m1, _util_get_external_path str_opt_media devices_example 1 (some buffer_example) =
        some (some m1) ∧ c_str m1 = c_str str_opt_media) ∧
    (∃ m1, _util_get_external_path str_opt_media devices_example 0 (some buffer_example) =
        some (some m1) ∧
      match (external_paths devices_example).getLast? with
      | some p => c_str m1 = p
      | none => m1 = buffer_example) ∧
    (external_paths devices_example).getLast? = some str_mnt_usb :=
  ⟨by decide,
   (_util_get_external_path_spec str_opt_media devices_example 1 buffer_example
      (by decide)).1 (by decide) (by decide),
   (_util_get_external_path_spec str_opt_media devices_example 0 buffer_example
      (by decide)).2.1 rfl,
   by decide⟩

/-! ## C10: `_util_get_internal_path` -/

theorem c_str_str_media : c_str str_media = str_media := by
  decide

/-- C10, amended: for an active user whose password entry has a name and a
buffer that is not NULL and has at least `sizeof(MTP_INTERNAL_PATH_CHAR)` bytes
and at least `strlen(MTP_INTERNAL_PATH_CHAR) + strlen(name) + 6 + 1` bytes,
`_util_get_internal_path` leaves in the buffer exactly `MTP_INTERNAL_PATH_CHAR`
followed by the name and by `/media`, NUL-terminated, of length
`strlen(MTP_INTERNAL_PATH_CHAR) + strlen(name) + 6`, whatever the buffer held
before; when the name is NULL and the buffer is not NULL and has at least
`sizeof(MTP_USER_DIRECTORY)` bytes, it leaves exactly `MTP_USER_DIRECTORY`. -/
theorem _util_get_internal_path_spec (MTP_USER_DIRECTORY MTP_INTERNAL_PATH_CHAR : List Nat)
    (pwd : passwd) (mem : List Nat) :
    (∀ name, pwd.pw_name = some name →
      MTP_INTERNAL_PATH_CHAR.length + 1 ≤ mem.length →
      (c_str MTP_INTERNAL_PATH_CHAR).length + (c_str name).length + 6 + 1 ≤ mem.length →
      ∃ m1, _util_get_internal_path MTP_USER_DIRECTORY MTP_INTERNAL_PATH_CHAR (some pwd)
            (some mem) = some (some m1) ∧
        c_str m1 = c_str MTP_INTERNAL_PATH_CHAR ++ c_str name ++ str_media ∧
        (c_str m1).length = (c_str MTP_INTERNAL_PATH_CHAR).length + (c_str name).length + 6) ∧
    (pwd.pw_name = none → MTP_USER_DIRECTORY.length + 1 ≤ mem.length →
      ∃ m1, _util_get_internal_path MTP_USER_DIRECTORY MTP_INTERNAL_PATH_CHAR (some pwd)
            (some mem) = some (some m1) ∧
        c_str m1 = c_str MTP_USER_DIRECTORY) := by
  constructor
  · intro name hname hlit hcap
    obtain ⟨r1, hr1, c1, _⟩ := copy_string mem MTP_INTERNAL_PATH_CHAR
      MTP_INTERNAL_PATH_CHAR.length (c_str_length_le _) hlit
    have c2 := strncat_string (c_str MTP_INTERNAL_PATH_CHAR) r1 name ((c_str name).length + 1)
      (c_str_no_nul _) (by omega) (by omega)
    have h0 : 0 ∉ c_str MTP_INTERNAL_PATH_CHAR ++ c_str name := by
      simp only [List.mem_append, not_or]
      exact ⟨c_str_no_nul _, c_str_no_nul _⟩
    have c3 := strncat_string (c_str MTP_INTERNAL_PATH_CHAR ++ c_str name)
      (r1.drop (c_str name).length) str_media 7 h0
      (by rw [c_str_str_media]; decide)
      (by rw [c_str_str_media, List.length_drop]; simp [str_media]; omega)
    rw [c_str_str_media] at c3
    have h1 : 0 ∉ c_str MTP_INTERNAL_PATH_CHAR ++ c_str name ++ str_media := by
      simp only [List.mem_append, not_or]
      exact ⟨⟨c_str_no_nul _, c_str_no_nul _⟩, by decide⟩
    have hs := c_str_append_nul ((r1.drop (c_str name).length).drop str_media.length) h1
    have c4 := write_bytes_at (c_str MTP_INTERNAL_PATH_CHAR ++ c_str name ++ str_media)
      ((r1.drop (c_str name).length).drop str_media.length) [0] [0] rfl
    have e : c_str MTP_INTERNAL_PATH_CHAR ++ c_str name ++ str_media ++ [0] ++
        (r1.drop (c_str name).length).drop str_media.length =
        c_str MTP_INTERNAL_PATH_CHAR ++ c_str name ++ str_media ++
          0 :: (r1.drop (c_str name).length).drop str_media.length := by
      simp
    rw [e] at c4
    refine ⟨_, ?_, hs, ?_⟩
    · unfold _util_get_internal_path
      simp only [hname, c1, c2, c3, hs, c4]
    · rw [hs]
      simp [str_media]
      omega
  · intro hname hcap
    obtain ⟨r1, _, c1, c2⟩ := copy_string mem MTP_USER_DIRECTORY
      MTP_USER_DIRECTORY.length (c_str_length_le _) hcap
    refine ⟨_, ?_, c_str_append_nul r1 (c_str_no_nul _)⟩
    unfold _util_get_internal_path
    simp only [hname, c1, Nat.add_sub_cancel, c2]

/-- C10 as stated fails, as the function takes no length and copies without a
bound. With the user `owner`, the built-in path `/home/` and a buffer of 17
bytes that is not NULL, the 17 bytes of `/home/owner/media` fit but their NUL is
written past the end of the buffer: the behaviour is undefined and no result is
that string. With a NULL name and `/home/owner/media` as `MTP_USER_DIRECTORY`, the
same buffer is too small as well. -/
theorem _util_get_internal_path_spec_counterexample :
    (buffer_17.length = 17 ∧
      (c_str str_home).length + (c_str str_owner).length + 6 = 17 ∧
      _util_get_internal_path str_home_owner_media str_home (some { pw_name := some str_owner })
        (some buffer_17) = none) ∧
    (str_home_owner_media.length = 17 ∧
      _util_get_internal_path str_home_owner_media str_home (some { pw_name := none })
        (some buffer_17) = none) := by
  decide

/-- The amended C10 at the user `owner`, the built-in path `/home/` and a
buffer of 32 bytes: the result is `/home/owner/media`, of 6 + 5 + 6 bytes. -/
theorem _util_get_internal_path_spec_witness :
    (str_home.length + 1 ≤ buffer_example.length ∧
      (c_str str_home).length + (c_str str_owner).length + 6 + 1 ≤ buffer_example.length) ∧
    (∃ m1, _util_get_internal_path str_opt_media str_home (some { pw_name := some str_owner })
          (some buffer_example) = some (some m1) ∧
      c_str m1 = c_str str_home ++ c_str str_owner ++ str_media ∧
      (c_str m1).length = (c_str str_home).length + (c_str str_owner).length + 6) ∧
    c_str str_home ++ c_str str_owner ++ str_media = str_home_owner_media :=
  ⟨by decide,
   (_util_get_internal_path_spec str_opt_media str_home { pw_name := some str_owner }
      buffer_example).1 str_owner rfl (by decide) (by decide),
   by decide⟩


/-! ## C11: `_util_get_battery_level` -/

/-- C11: `_util_get_battery_level` returns exactly the capacity the platform stored
when the query succeeds (returns 0), returns 100 when the query fails without
storing a value, and never returns an error code of its own: the value returned
does not depend on the code the query returns, and is either the value the
platform stored or 100. -/
theorem _util_get_battery_level_spec (platform : vconf_reply) :
    (∀ capacity, platform.result = 0 → platform.stored = some capacity →
      _util_get_battery_level platform = capacity) ∧
    (platform.result ≠ 0 → platform.stored = none → _util_get_battery_level platform = 100) ∧
    (∀ code, _util_get_battery_level { platform with result := code } =
      _util_get_battery_level platform) ∧
    (platform.stored = some (_util_get_battery_level platform) ∨
      _util_get_battery_level platform = 100) := by
  unfold _util_get_battery_level vconf_get_int
  refine ⟨?_, ?_, ?_, ?_⟩
  · intro capacity _ hs
    simp [hs]
  · intro _ hs
    simp [hs]
  · intro code
    rfl
  · cases hs : platform.stored with
    | none => right; simp
    | some v => left; simp

/-- The statement C11 at a query that succeeds and stores 57, and at one that
fails with -1 and stores nothing. -/
theorem _util_get_battery_level_spec_witness :
    _util_get_battery_level { result := 0, stored := some 57 } = 57 ∧
    _util_get_battery_level { result := -1, stored := none } = 100 :=
  ⟨(_util_get_battery_level_spec { result := 0, stored := some 57 }).1 57 rfl rfl,
   (_util_get_battery_level_spec { result := -1, stored := none }).2.1 (by decide) rfl⟩

/-! ## C12: the getters and setters of `g_ph_status` -/

theorem ph_get_state (field : ph_field) (g : phone_state_t) : (ph_get field g).2 = g := by
  cases field <;> rfl

theorem ph_get_set (field field1 : ph_field) (val : Int) (g : phone_state_t) :
    (ph_get field (ph_set field1 val g)).1 =
      if field1 = field then val else (ph_get field g).1 := by
  cases field <;> cases field1 <;> rfl

theorem last_set_cons (field : ph_field) (c : ph_call) (calls : List ph_call) :
    last_set field (c :: calls) = match last_set field calls with
      | some v => some v
      | none => set_value field c := by
  unfold last_set
  cases hc : set_value field c with
  | none =>
    rw [List.filterMap_cons_none hc]
    cases (List.filterMap (set_value field) calls).getLast? <;> rfl
  | some v =>
    rw [List.filterMap_cons_some hc, getLast?_cons_eq]
    cases (List.filterMap (set_value field) calls).getLast? <;> rfl

/-- After a sequence of calls a getter returns the value of the most recent call
of the setter of its field, and what it returned before the sequence when
there is none. -/
theorem ph_get_run (field : ph_field) (calls : List ph_call) :
    ∀ g : phone_state_t, (ph_get field (ph_run calls g)).1 =
      (last_set field calls).getD (ph_get field g).1 := by
  induction calls with
  | nil => intro g; rfl
  | cons c calls ih =>
    intro g
    rw [last_set_cons]
    cases c with
    | set field1 val =>
      simp only [ph_run]
      rw [ih, ph_get_set]
      cases last_set field calls with
      | some v => rfl
      | none =>
        by_cases h : field1 = field
        · simp [set_value, h]
        · simp [set_value, h]
    | get field1 =>
      simp only [ph_run]
      rw [ih, ph_get_state]
      cases last_set field calls with
      | some v => rfl
      | none => simp [set_value]

/-- C12: `g_ph_status` has the four fields `usb_state`, `mmc_state`, `usb_mode_state`
and `lock_state`, all zero initially; the getter of a field called after its
setter returns the value set, a setter changes no other field, a getter changes
no field, and so, after any sequence of calls of the eight functions from the
initial state, each getter returns the value of the most recent call of the
setter of its own field (zero when there was none). -/
theorem g_ph_status_get_set :
    (g_ph_status.usb_state = 0 ∧ g_ph_status.mmc_state = 0 ∧
      g_ph_status.usb_mode_state = 0 ∧ g_ph_status.lock_state = 0) ∧
    (∀ (v : Int) (g : phone_state_t),
      (_util_get_local_usb_status (_util_set_local_usb_status v g)).1 = v ∧
      (_util_get_local_mmc_status (_util_set_local_mmc_status v g)).1 = v ∧
      (_util_get_local_usbmode_status (_util_set_local_usbmode_status v g)).1 = v ∧
      (_util_get_local_lock_status (_util_set_local_lock_status v g)).1 = v) ∧
    (∀ (v : Int) (g : phone_state_t),
      ((_util_set_local_usb_status v g).mmc_state = g.mmc_state ∧
        (_util_set_local_usb_status v g).usb_mode_state = g.usb_mode_state ∧
        (_util_set_local_usb_status v g).lock_state = g.lock_state) ∧
      ((_util_set_local_mmc_status v g).usb_state = g.usb_state ∧
        (_util_set_local_mmc_status v g).usb_mode_state = g.usb_mode_state ∧
        (_util_set_local_mmc_status v g).lock_state = g.lock_state) ∧
      ((_util_set_local_usbmode_status v g).usb_state = g.usb_state ∧
        (_util_set_local_usbmode_status v g).mmc_state = g.mmc_state ∧
        (_util_set_local_usbmode_status v g).lock_state = g.lock_state) ∧
      ((_util_set_local_lock_status v g).usb_state = g.usb_state ∧
        (_util_set_local_lock_status v g).mmc_state = g.mmc_state ∧
        (_util_set_local_lock_status v g).usb_mode_state = g.usb_mode_state)) ∧
    (∀ g : phone_state_t,
      (_util_get_local_usb_status g).2 = g ∧ (_util_get_local_mmc_status g).2 = g ∧
      (_util_get_local_usbmode_status g).2 = g ∧ (_util_get_local_lock_status g).2 = g) ∧
    (∀ calls : List ph_call,
      (_util_get_local_usb_status (ph_run calls g_ph_status)).1 =
        (last_set ph_field.usb_state calls).getD 0 ∧
      (_util_get_local_mmc_status (ph_run calls g_ph_status)).1 =
        (last_set ph_field.mmc_state calls).getD 0 ∧
      (_util_get_local_usbmode_status (ph_run calls g_ph_status)).1 =
        (last_set ph_field.usb_mode_state calls).getD 0 ∧
      (_util_get_local_lock_status (ph_run calls g_ph_status)).1 =
        (last_set ph_field.lock_state calls).getD 0) := by
  refine ⟨⟨rfl, rfl, rfl, rfl⟩, fun v g => ⟨rfl, rfl, rfl, rfl⟩,
    fun v g => ⟨⟨rfl, rfl, rfl⟩, ⟨rfl, rfl, rfl⟩, ⟨rfl, rfl, rfl⟩, ⟨rfl, rfl, rfl⟩⟩,
    fun g => ⟨rfl, rfl, rfl, rfl⟩, fun calls => ?_⟩
  exact ⟨ph_get_run ph_field.usb_state calls g_ph_status,
    ph_get_run ph_field.mmc_state calls g_ph_status,
    ph_get_run ph_field.usb_mode_state calls g_ph_status,
    ph_get_run ph_field.lock_state calls g_ph_status⟩

/-- The five calls of `calls_example` from the initial state: the lock status
ends at 0, the value set last, the USB status at 2, and the card status, never
set, at 0. -/
theorem g_ph_status_calls_example :
    (_util_get_local_lock_status (ph_run calls_example g_ph_status)).1 = 0 ∧
    (_util_get_local_usb_status (ph_run calls_example g_ph_status)).1 = 2 ∧
    (_util_get_local_mmc_status (ph_run calls_example g_ph_status)).1 = 0 ∧
    last_set ph_field.mmc_state calls_example = none := by
  decide

end Mtp
